import Mathlib

/-!
# Cinder, Linux application backend (`src/cinder/app/linux/AppImplLinux.cpp`)

A shallow embedding of the GLFW glue of the Linux backend: the callback routing
table `GlfwCallbacks`, the application object `AppImplLinux` with its window
list, the frame loop `run` and the frame pacing routine `sleepUntilNextFrame`.

Conventions of the embedding.

* `double` and `float` values are rational numbers and their arithmetic is
  exact.  Every finite `double` is a rational number, so the finite inputs of
  the program are covered.
* `int` is 32 bits wide and `unsigned long` 64 bits wide, as on 64-bit Linux.  A
  conversion `(int)x` truncates toward zero when the truncated value fits; the
  language leaves the result undefined otherwise, and the embedding takes that
  result from a `Platform` parameter.
* The parameter of `usleep` has the type `useconds_t`, 32 bits wide on Linux,
  so the call `usleep(sleepMicroSecs)` passes the value modulo 2^32.
* Calls that leave the file (GLFW, the application object, the window objects)
  are recorded in order in a list of `Call`s, and what they return is read
  from parameters.
-/

namespace Cinder

/-! ## Machine numbers -/

/-- Smallest value of a 32-bit `int`. -/
def INT_MIN : Int := -2147483648

/-- Largest value of a 32-bit `int`. -/
def INT_MAX : Int := 2147483647

/-- Largest value of a 64-bit `unsigned long`. -/
def ULONG_MAX : Int := 18446744073709551615

/-- Truncation toward zero, the rounding of a floating-to-integer conversion. -/
def truncate (x : ℚ) : Int := if 0 ≤ x then ⌊x⌋ else ⌈x⌉

/-- The truncated value is representable in `int`. -/
def inIntRange (x : ℚ) : Prop := INT_MIN ≤ truncate x ∧ truncate x ≤ INT_MAX

/-- The truncated value is representable in `unsigned long`. -/
def inULongRange (x : ℚ) : Prop := 0 ≤ truncate x ∧ truncate x ≤ ULONG_MAX

instance (x : ℚ) : Decidable (inIntRange x) := by
  unfold inIntRange; exact inferInstance

instance (x : ℚ) : Decidable (inULongRange x) := by
  unfold inULongRange; exact inferInstance

/-- What a floating-to-integer conversion yields when the truncated value is
not representable in the target type.  The language does not fix it. -/
structure Platform where
  /-- Result of `(int)x` for an out-of-range `x`. -/
  intOutOfRange : ℚ → Int
  /-- Result of the conversion to `unsigned long` for an out-of-range `x`. -/
  ulongOutOfRange : ℚ → Int

/-- Reduction of an integer into the range of `int` (as a two-complement machine does). -/
def wrapInt (n : Int) : Int := (n + 2147483648) % 4294967296 - 2147483648

/-- Reduction of an integer into the range of `unsigned long`. -/
def wrapULong (n : Int) : Int := n % 18446744073709551616

/-- The conversion `(int)x` of a floating value. -/
def castInt (P : Platform) (x : ℚ) : Int :=
  if inIntRange x then truncate x else wrapInt (P.intOutOfRange x)

/-- The conversion of a floating value to `unsigned long`. -/
def castULong (P : Platform) (x : ℚ) : Int :=
  if inULongRange x then truncate x else wrapULong (P.ulongOutOfRange x)

/-- A platform whose out-of-range conversions yield the most negative `int`
and zero.  The conversion instruction of x86-64 returns the most negative
`int` for every value that does not fit. -/
def x86_64 : Platform where
  intOutOfRange := fun _ => INT_MIN
  ulongOutOfRange := fun _ => 0

/-! ## Data model -/

/-- A native window handle (`GLFWwindow*`), compared by identity. -/
abbrev GLFWwindow := Nat

/-- Identity of a framework window object. -/
abbrev WindowId := Nat

/-- A shared window reference (`WindowRef`); `none` is the empty reference. -/
abbrev WindowRef := Option WindowId

/-- A renderer object; only its dynamic type is inspected by this file. -/
structure Renderer where
  typeId : Nat
deriving DecidableEq, Repr

/-- A shared renderer reference (`RendererRef`); `none` is the empty reference. -/
abbrev RendererRef := Option Renderer

/-- A window format (`Window::Format`): the renderer it asks for and the
remaining settings, which this file passes on without reading them. -/
structure Format where
  renderer : RendererRef
  other : Nat
deriving DecidableEq, Repr

/-- Application settings (`AppLinux::Settings`) as far as the constructor reads them. -/
structure Settings where
  frameRate : ℚ
  frameRateEnabled : Bool
  windowFormats : List Format
  defaultWindowFormat : Format

/-- A window implementation object (`WindowImplLinux`): the members this file
reads, and the arguments it was constructed from. -/
structure WindowImplLinux where
  mWindowRef : WindowRef
  mNative : GLFWwindow
  mRenderer : RendererRef
  format : Format
  sharedRenderer : RendererRef
deriving DecidableEq, Repr

/-- Modelled from the spec: the accessor `WindowImplLinux::getWindow`, declared in
`WindowImplLinux.h`, which hands out the window reference the object holds. -/
def WindowImplLinux.getWindow (w : WindowImplLinux) : WindowRef := w.mWindowRef

/-- Modelled from the spec: the accessor `WindowImplLinux::getRenderer`, declared in
`WindowImplLinux.h`, which hands out the renderer the object holds. -/
def WindowImplLinux.getRenderer (w : WindowImplLinux) : RendererRef := w.mRenderer

/-- A call that leaves the file, in the order the file makes them. -/
inductive Call where
  | glfwSetErrorCallback
  | glfwSetCursorPosCallback (glfwWindow : GLFWwindow)
  | glfwSetMouseButtonCallback (glfwWindow : GLFWwindow)
  | glfwInit
  | privateSetup
  | privateUpdate
  | draw (w : WindowImplLinux)
  | glfwPollEvents
  | usleep (microSecs : Int)
  | glfwWindowShouldClose (w : WindowRef)
  | resetMainWindow (w : WindowRef)
  | glfwTerminate
  | newWindowImpl (format : Format) (sharedRenderer : RendererRef)
  | emitResize (w : WindowRef)
  | hideCursor (w : WindowRef)
  | showCursor (w : WindowRef)
deriving DecidableEq, Repr

/-- The application implementation object (`AppImplLinux`): its data members,
and the calls it has made so far. -/
structure AppImplLinux where
  mFrameRate : ℚ
  mFrameRateEnabled : Bool
  mNextFrameTime : ℚ
  mShouldQuit : Bool
  mSetupHasBeenCalled : Bool
  mWindows : List WindowImplLinux
  mMainWindow : WindowRef
  mActiveWindow : WindowRef
  mForegroundWindow : WindowRef
  calls : List Call

/-! ## Frame pacing -/

/-- Local `secondsPerFrame` of `sleepUntilNextFrame`.  The quotient is a number
only for a frame rate other than zero, which every statement below assumes. -/
def secondsPerFrame (app : AppImplLinux) : ℚ := 1 / app.mFrameRate

/-- Local `elapsedSeconds` of `sleepUntilNextFrame`. -/
def elapsedSeconds (app : AppImplLinux) (currentSeconds : ℚ) : ℚ :=
  currentSeconds - app.mNextFrameTime

/-- Local `numSkipFrames` of `sleepUntilNextFrame`. -/
def numSkipFrames (P : Platform) (app : AppImplLinux) (currentSeconds : ℚ) : Int :=
  castInt P (elapsedSeconds app currentSeconds / secondsPerFrame app)

/-- Value of `mNextFrameTime` when `sleepUntilNextFrame` reaches its test for sleeping. -/
def nextFrameTime (P : Platform) (app : AppImplLinux) (currentSeconds : ℚ) : ℚ :=
  let skipped :=
    if elapsedSeconds app currentSeconds > 1 then
      app.mNextFrameTime + (numSkipFrames P app currentSeconds : ℚ) * secondsPerFrame app
    else app.mNextFrameTime
  skipped + secondsPerFrame app

/-- Local `sleepTime` of `sleepUntilNextFrame`. -/
def sleepTime (P : Platform) (app : AppImplLinux) (currentSeconds : ℚ) : ℚ :=
  max (nextFrameTime P app currentSeconds - currentSeconds) 0

/-- Local `sleepMicroSecs` of `sleepUntilNextFrame`. -/
def sleepMicroSecs (P : Platform) (app : AppImplLinux) (currentSeconds : ℚ) : Int :=
  castULong P (sleepTime P app currentSeconds * 1000000)

/-- Modelled from the spec: the largest value of the type `useconds_t` of the
parameter of `usleep`; the type is declared in the system header `unistd.h`,
which is not part of this file, and is an unsigned integer of 32 bits on Linux. -/
def USECONDS_MAX : Int := 4294967295

/-- The truncated value is representable in `useconds_t`. -/
def inUSecondsRange (x : ℚ) : Prop := 0 ≤ truncate x ∧ truncate x ≤ USECONDS_MAX

instance (x : ℚ) : Decidable (inUSecondsRange x) := by
  unfold inUSecondsRange; exact inferInstance

/-- The conversion of an `unsigned long` to `useconds_t` that the call
`usleep(sleepMicroSecs)` performs on its argument: reduction modulo 2^32. -/
def toUSeconds (n : Int) : Int := n % 4294967296

/-- The sleep that `sleepUntilNextFrame` requests, in microseconds: the argument
of its `usleep` call as `usleep` receives it, which is `sleepMicroSecs` converted
to `useconds_t`, or `none` when the routine does not call `usleep`. -/
def requestedSleep (P : Platform) (app : AppImplLinux) (currentSeconds : ℚ) : Option Int :=
  if app.mFrameRateEnabled = true ∧ nextFrameTime P app currentSeconds > currentSeconds then
    some (toUSeconds (sleepMicroSecs P app currentSeconds))
  else none

/-- The routine `AppImplLinux::sleepUntilNextFrame`, run at the clock reading
`currentSeconds` (what `getElapsedSeconds()` returns). -/
def sleepUntilNextFrame (P : Platform) (app : AppImplLinux) (currentSeconds : ℚ) :
    AppImplLinux :=
  let app1 := { app with mNextFrameTime := nextFrameTime P app currentSeconds }
  match requestedSleep P app currentSeconds with
  | some us => { app1 with calls := app1.calls ++ [Call.usleep us] }
  | none => app1

/-- Earliest time at which a call made at `currentSeconds` returns: the clock
reading plus the sleep the call requests. -/
def earliestReturn (P : Platform) (app : AppImplLinux) (currentSeconds : ℚ) : ℚ :=
  match requestedSleep P app currentSeconds with
  | some us => currentSeconds + (us : ℚ) / 1000000
  | none => currentSeconds

/-- The skip count that a call of `sleepUntilNextFrame` at `currentSeconds`
computes, when it computes one, is representable in `int`. -/
def skipCountFits (app : AppImplLinux) (currentSeconds : ℚ) : Prop :=
  elapsedSeconds app currentSeconds > 1 →
    inIntRange (elapsedSeconds app currentSeconds / secondsPerFrame app)

/-- The microsecond count that a call of `sleepUntilNextFrame` at `currentSeconds`
computes, when the call sleeps, is representable in `useconds_t`, the type of
the parameter of `usleep`: it is below 2^32, which is about 4295 seconds. -/
def sleepFits (P : Platform) (app : AppImplLinux) (currentSeconds : ℚ) : Prop :=
  app.mFrameRateEnabled = true ∧ nextFrameTime P app currentSeconds > currentSeconds →
    inUSecondsRange (sleepTime P app currentSeconds * 1000000)

instance (app : AppImplLinux) (currentSeconds : ℚ) :
    Decidable (skipCountFits app currentSeconds) := by
  unfold skipCountFits; exact inferInstance

instance (P : Platform) (app : AppImplLinux) (currentSeconds : ℚ) :
    Decidable (sleepFits P app currentSeconds) := by
  unfold sleepFits; exact inferInstance

/-- The object after successive calls of `sleepUntilNextFrame` at the given clock readings. -/
def afterCalls (P : Platform) (app : AppImplLinux) : List ℚ → AppImplLinux
  | [] => app
  | cur :: rest => afterCalls P (sleepUntilNextFrame P app cur) rest

/-- The skip count of every call of a sequence is representable in `int`. -/
def allSkipCountsFit (P : Platform) (app : AppImplLinux) : List ℚ → Prop
  | [] => True
  | cur :: rest =>
      skipCountFits app cur ∧ allSkipCountsFit P (sleepUntilNextFrame P app cur) rest

/-- The predicate `allSkipCountsFit` can be evaluated. -/
def allSkipCountsFit.decide (P : Platform) :
    (app : AppImplLinux) → (curs : List ℚ) → Decidable (allSkipCountsFit P app curs)
  | _, [] => isTrue trivial
  | app, cur :: rest =>
      match (inferInstance : Decidable (skipCountFits app cur)),
        allSkipCountsFit.decide P (sleepUntilNextFrame P app cur) rest with
      | isTrue h1, isTrue h2 => isTrue ⟨h1, h2⟩
      | isFalse h1, _ => isFalse (fun h => h1 h.1)
      | _, isFalse h2 => isFalse (fun h => h2 h.2)

instance (P : Platform) (app : AppImplLinux) (curs : List ℚ) :
    Decidable (allSkipCountsFit P app curs) :=
  allSkipCountsFit.decide P app curs

/-! ## Callback routing -/

/-- Modelled from the spec: the constant `GLFW_RELEASE` of the GLFW header, which is
not part of this file. -/
def GLFW_RELEASE : Int := 0

/-- Modelled from the spec: the constant `GLFW_PRESS` of the GLFW header, which is
not part of this file. -/
def GLFW_PRESS : Int := 1

/-- Modelled from the spec: the constant `GLFW_REPEAT` of the GLFW header, which is
not part of this file. -/
def GLFW_REPEAT : Int := 2

/-- Modelled from the spec: the constant `GLFW_MOUSE_BUTTON_LEFT` of the GLFW header,
which is not part of this file. -/
def GLFW_MOUSE_BUTTON_LEFT : Int := 0

/-- Modelled from the spec: the constant `GLFW_MOUSE_BUTTON_RIGHT` of the GLFW header,
which is not part of this file. -/
def GLFW_MOUSE_BUTTON_RIGHT : Int := 1

/-- Modelled from the spec: the constant `GLFW_MOUSE_BUTTON_MIDDLE` of the GLFW header,
which is not part of this file. -/
def GLFW_MOUSE_BUTTON_MIDDLE : Int := 2

/-- Modelled from the spec: the initiator bit `MouseEvent::LEFT_DOWN` of
`cinder/app/MouseEvent.h`, which is not part of this file. -/
def LEFT_DOWN : Nat := 0x0001

/-- Modelled from the spec: the initiator bit `MouseEvent::RIGHT_DOWN` of
`cinder/app/MouseEvent.h`, which is not part of this file. -/
def RIGHT_DOWN : Nat := 0x0002

/-- Modelled from the spec: the initiator bit `MouseEvent::MIDDLE_DOWN` of
`cinder/app/MouseEvent.h`, which is not part of this file. -/
def MIDDLE_DOWN : Nat := 0x0004

/-- A mouse event as the callbacks construct it:
`MouseEvent( window, initiator, x, y, modifiers, wheelIncrement, nativeModifiers )`. -/
structure MouseEvent where
  window : WindowRef
  initiator : Nat
  x : Int
  y : Int
  modifiers : Nat
  wheelIncrement : ℚ
  nativeModifiers : Nat
deriving DecidableEq

/-- The signal of a window on which a callback emits an event. -/
inductive Signal where
  | mouseDown
  | mouseUp
  | mouseMove
  | mouseDrag
deriving DecidableEq, Repr

/-- One emitted event: the window whose signal is called, the signal, the event. -/
structure Emission where
  target : WindowRef
  signal : Signal
  event : MouseEvent
deriving DecidableEq

/-- What GLFW reports when a callback asks: the state of a mouse button of a
window (`glfwGetMouseButton`) and the cursor position (`glfwGetCursorPos`). -/
structure GlfwInput where
  mouseButton : GLFWwindow → Int → Int
  cursorPos : GLFWwindow → ℚ × ℚ

/-- Lookup `sWindowMapping.find( key )`: the mapped window, `none` for `end()`. -/
def mapFind (key : GLFWwindow) : List (GLFWwindow × WindowRef) → Option WindowRef
  | [] => none
  | (k, v) :: rest => if k = key then some v else mapFind key rest

/-- Assignment `sWindowMapping[key] = value` on the entries of the map, which are
kept in key order: the element with the key is created if there is none, and
receives the value. -/
def mapAssign (key : GLFWwindow) (value : WindowRef) :
    List (GLFWwindow × WindowRef) → List (GLFWwindow × WindowRef)
  | [] => [(key, value)]
  | (k, v) :: rest =>
      if key < k then (key, value) :: (k, v) :: rest
      else if key = k then (key, value) :: rest
      else (k, v) :: mapAssign key value rest

/-- Removal `sWindowMapping.erase( key )`: every element with the key goes. -/
def mapErase (key : GLFWwindow) (m : List (GLFWwindow × WindowRef)) :
    List (GLFWwindow × WindowRef) :=
  m.filter (fun e => decide (e.1 ≠ key))

/-- The invariant of `std::map`: the keys of the entries increase strictly, so
no key occurs twice. -/
def keysIncrease (m : List (GLFWwindow × WindowRef)) : Prop :=
  (m.map Prod.fst).Pairwise (fun a b => a < b)

instance (m : List (GLFWwindow × WindowRef)) : Decidable (keysIncrease m) := by
  unfold keysIncrease; exact inferInstance

/-- The static state of `GlfwCallbacks`: the routing table, and the calls made
to GLFW to install the callbacks. -/
structure GlfwCallbacks where
  sWindowMapping : List (GLFWwindow × WindowRef)
  calls : List Call

/-- The function `GlfwCallbacks::registerInput`. -/
def GlfwCallbacks.registerInput (cb : GlfwCallbacks) (glfwWindow : GLFWwindow)
    (cinderWindow : WindowRef) : GlfwCallbacks :=
  { sWindowMapping := mapAssign glfwWindow cinderWindow cb.sWindowMapping,
    calls := cb.calls ++
      [Call.glfwSetCursorPosCallback glfwWindow, Call.glfwSetMouseButtonCallback glfwWindow] }

/-- The function `GlfwCallbacks::unregisterInput`. -/
def GlfwCallbacks.unregisterInput (cb : GlfwCallbacks) (glfwWindow : GLFWwindow) :
    GlfwCallbacks :=
  { cb with sWindowMapping := mapErase glfwWindow cb.sWindowMapping }

/-- The function `AppImplLinux::registerInput`, which acts on the routing table. -/
def AppImplLinux.registerInput (cb : GlfwCallbacks) (window : WindowImplLinux) :
    GlfwCallbacks :=
  cb.registerInput window.mNative window.getWindow

/-- The function `AppImplLinux::unregisterInput`, which acts on the routing table. -/
def AppImplLinux.unregisterInput (cb : GlfwCallbacks) (window : WindowImplLinux) :
    GlfwCallbacks :=
  cb.unregisterInput window.mNative

/-- Local `initiator` of `onMousePos` after its three tests. -/
def mousePosInitiator (glfw : GlfwInput) (glfwWindow : GLFWwindow) : Nat :=
  let initiator := 0
  let initiator :=
    if GLFW_PRESS = glfw.mouseButton glfwWindow GLFW_MOUSE_BUTTON_LEFT then
      initiator ||| LEFT_DOWN else initiator
  let initiator :=
    if GLFW_PRESS = glfw.mouseButton glfwWindow GLFW_MOUSE_BUTTON_MIDDLE then
      initiator ||| MIDDLE_DOWN else initiator
  let initiator :=
    if GLFW_PRESS = glfw.mouseButton glfwWindow GLFW_MOUSE_BUTTON_LEFT then
      initiator ||| RIGHT_DOWN else initiator
  initiator

/-- The callback `GlfwCallbacks::onMousePos`: the events it emits.  The
parameter `activeWindow` is what `getWindow()` returns at the call. -/
def GlfwCallbacks.onMousePos (P : Platform) (cb : GlfwCallbacks) (glfw : GlfwInput)
    (activeWindow : WindowRef) (glfwWindow : GLFWwindow) (mouseX mouseY : ℚ) :
    List Emission :=
  match mapFind glfwWindow cb.sWindowMapping with
  | some cinderWindow =>
      let initiator := mousePosInitiator glfw glfwWindow
      let event : MouseEvent :=
        ⟨activeWindow, initiator, castInt P mouseX, castInt P mouseY, 0, 0, 0⟩
      if 0 ≠ initiator then [⟨cinderWindow, Signal.mouseDrag, event⟩]
      else [⟨cinderWindow, Signal.mouseMove, event⟩]
  | none => []

/-- Local `initiator` of `onMouseButton` after its `switch`. -/
def mouseButtonInitiator (button : Int) : Nat :=
  if button = GLFW_MOUSE_BUTTON_LEFT then LEFT_DOWN
  else if button = GLFW_MOUSE_BUTTON_MIDDLE then MIDDLE_DOWN
  else if button = GLFW_MOUSE_BUTTON_RIGHT then RIGHT_DOWN
  else 0

/-- The callback `GlfwCallbacks::onMouseButton`: the events it emits.  The
parameter `activeWindow` is what `getWindow()` returns at the call. -/
def GlfwCallbacks.onMouseButton (P : Platform) (cb : GlfwCallbacks) (glfw : GlfwInput)
    (activeWindow : WindowRef) (glfwWindow : GLFWwindow) (button action : Int) (_mod : Int) :
    List Emission :=
  match mapFind glfwWindow cb.sWindowMapping with
  | some cinderWindow =>
      let mouse := glfw.cursorPos glfwWindow
      let initiator := mouseButtonInitiator button
      if 0 ≠ initiator then
        let event : MouseEvent :=
          ⟨activeWindow, initiator, castInt P mouse.1, castInt P mouse.2, 0, 0, 0⟩
        if GLFW_PRESS = action then [⟨cinderWindow, Signal.mouseDown, event⟩]
        else if GLFW_RELEASE = action then [⟨cinderWindow, Signal.mouseUp, event⟩]
        else []
      else []
  | none => []

/-! ## Windows -/

/-- The members of a new window implementation object that its constructor
determines. -/
structure WindowParts where
  mWindowRef : WindowRef
  mNative : GLFWwindow
  mRenderer : RendererRef

/-- What the code outside the file returns to the application object: the result
of `::glfwInit()`, the clone of the default renderer of the application, and the
members of the object built by `new WindowImplLinux( format, sharedRenderer, this )`,
which may depend on the number of calls made before. -/
structure World where
  glfwInit : Bool
  defaultRendererClone : RendererRef
  newWindowImpl : Nat → Format → RendererRef → WindowParts

/-- The values the scalar members hold when the constructor body starts; the
constructor has no initializer for them. -/
structure RawMembers where
  mFrameRate : ℚ
  mFrameRateEnabled : Bool
  mNextFrameTime : ℚ
  mShouldQuit : Bool
  mSetupHasBeenCalled : Bool

/-- The object when the constructor body starts: the window list and the
window references are empty, the scalar members hold the raw values. -/
def AppImplLinux.beforeBody (raw : RawMembers) : AppImplLinux :=
  { mFrameRate := raw.mFrameRate, mFrameRateEnabled := raw.mFrameRateEnabled,
    mNextFrameTime := raw.mNextFrameTime, mShouldQuit := raw.mShouldQuit,
    mSetupHasBeenCalled := raw.mSetupHasBeenCalled, mWindows := [],
    mMainWindow := none, mActiveWindow := none, mForegroundWindow := none, calls := [] }

/-- The function `AppImplLinux::findSharedRenderer`: the renderer of the first
window whose renderer has the dynamic type of the renderer searched for. -/
def findSharedRenderer (app : AppImplLinux) (searchRenderer : RendererRef) : RendererRef :=
  match searchRenderer with
  | none => none
  | some search =>
      let sameType : WindowImplLinux → Bool := fun win =>
        match win.getRenderer with
        | some renderer => decide (renderer.typeId = search.typeId)
        | none => false
      match app.mWindows.find? sameType with
      | some win => win.getRenderer
      | none => none

/-- The function `AppImplLinux::createWindow`: the object afterwards and the
window reference returned. -/
def createWindow (env : World) (app : AppImplLinux) (format : Format) :
    AppImplLinux × WindowRef :=
  let format : Format :=
    if format.renderer = none then { format with renderer := env.defaultRendererClone }
    else format
  let shared := findSharedRenderer app format.renderer
  let parts := env.newWindowImpl app.calls.length format shared
  let win : WindowImplLinux :=
    { mWindowRef := parts.mWindowRef, mNative := parts.mNative, mRenderer := parts.mRenderer,
      format := format, sharedRenderer := shared }
  let app1 : AppImplLinux :=
    { app with mWindows := app.mWindows ++ [win],
               calls := app.calls ++ [Call.newWindowImpl format shared] }
  let app2 : AppImplLinux :=
    if app1.mSetupHasBeenCalled = true then
      { app1 with calls := app1.calls ++ [Call.emitResize win.getWindow] }
    else app1
  (app2, win.getWindow)

/-- The function `AppImplLinux::setWindow`. -/
def setWindow (app : AppImplLinux) (window : WindowRef) : AppImplLinux :=
  { app with mActiveWindow := window }

/-- The function `AppImplLinux::getWindow`. -/
def getWindow (app : AppImplLinux) : WindowRef := app.mActiveWindow

/-- The function `AppImplLinux::getNumWindows`. -/
def getNumWindows (app : AppImplLinux) : Nat := app.mWindows.length

/-- The loop of the constructor over the window formats. -/
def createWindows (env : World) (app : AppImplLinux) : List Format → AppImplLinux
  | [] => app
  | format :: rest =>
      let app1 : AppImplLinux :=
        if app.mMainWindow = none then
          let created := createWindow env app format
          { created.1 with mMainWindow := created.2 }
        else (createWindow env app format).1
      createWindows env app1 rest

/-- How a constructor call ends: the value thrown, if any, and the members of
the object at that point. -/
structure Constructed where
  thrown : Option String
  app : AppImplLinux

/-- The constructor `AppImplLinux::AppImplLinux`. -/
def AppImplLinux.construct (env : World) (raw : RawMembers) (settings : Settings) :
    Constructed :=
  let app0 : AppImplLinux :=
    { AppImplLinux.beforeBody raw with calls := [Call.glfwSetErrorCallback, Call.glfwInit] }
  if env.glfwInit = false then ⟨some "::glfwInit failed!", app0⟩
  else
    let app1 : AppImplLinux :=
      { app0 with mFrameRate := settings.frameRate,
                  mFrameRateEnabled := settings.frameRateEnabled }
    let formats : List Format :=
      if settings.windowFormats.isEmpty then
        settings.windowFormats ++ [settings.defaultWindowFormat]
      else settings.windowFormats
    let app2 := createWindows env app1 formats
    let app3 : AppImplLinux :=
      match app2.mWindows.getLast? with
      | some back => setWindow app2 back.getWindow
      | none => app2
    ⟨none, app3⟩

/-- Result of reading through an iterator of the window list. -/
inductive Read (α : Type) where
  | value (a : α)
  | pastTheEnd
deriving DecidableEq

/-- The list iterator `begin()` advanced by `n` steps (`std::advance`): the
elements from the position on, or `none` when the steps leave the list. -/
def advance {α : Type} : List α → Nat → Option (List α)
  | l, 0 => some l
  | [], _ + 1 => none
  | _ :: rest, n + 1 => advance rest n

/-- The function `AppImplLinux::getWindowIndex`. -/
def getWindowIndex (app : AppImplLinux) (index : Nat) : Read WindowRef :=
  if index ≥ app.mWindows.length then Read.value none
  else
    match advance app.mWindows index with
    | some (win :: _) => Read.value win.mWindowRef
    | _ => Read.pastTheEnd

/-! ## The frame loop -/

/-- The function `AppImplLinux::quit`. -/
def quit (app : AppImplLinux) : AppImplLinux :=
  { app with calls := app.calls ++ [Call.glfwTerminate] }

/-- The function `AppImplLinux::setFrameRate`; `now` is what
`mApp->getElapsedSeconds()` returns. -/
def setFrameRate (app : AppImplLinux) (frameRate : ℚ) (now : ℚ) : AppImplLinux :=
  { app with mFrameRate := frameRate, mFrameRateEnabled := true, mNextFrameTime := now }

/-- The function `AppImplLinux::disableFrameRate`. -/
def disableFrameRate (app : AppImplLinux) : AppImplLinux :=
  { app with mFrameRateEnabled := false }

/-- The function `AppImplLinux::setForegroundWindow`. -/
def setForegroundWindow (app : AppImplLinux) (window : WindowRef) : AppImplLinux :=
  { app with mForegroundWindow := window }

/-- The function `AppImplLinux::hideCursor`. -/
def hideCursor (app : AppImplLinux) : AppImplLinux :=
  { app with calls := app.calls ++ [Call.hideCursor app.mActiveWindow] }

/-- The function `AppImplLinux::showCursor`. -/
def showCursor (app : AppImplLinux) : AppImplLinux :=
  { app with calls := app.calls ++ [Call.showCursor app.mActiveWindow] }

/-- A call of a member function of the file that changes the object, as the
application may make it from its own code while the loop runs.  The remaining
member functions either return a value without changing the object, or act on
the routing table of `GlfwCallbacks` alone (`registerInput`, `unregisterInput`). -/
inductive Op where
  | createWindow (format : Format)
  | quit
  | setFrameRate (frameRate : ℚ) (now : ℚ)
  | disableFrameRate
  | setWindow (window : WindowRef)
  | setForegroundWindow (window : WindowRef)
  | hideCursor
  | showCursor
  | sleepUntilNextFrame (currentSeconds : ℚ)

/-- The object after one such call. -/
def Op.apply (P : Platform) (env : World) (app : AppImplLinux) : Op → AppImplLinux
  | Op.createWindow format => (Cinder.createWindow env app format).1
  | Op.quit => Cinder.quit app
  | Op.setFrameRate frameRate now => Cinder.setFrameRate app frameRate now
  | Op.disableFrameRate => Cinder.disableFrameRate app
  | Op.setWindow window => Cinder.setWindow app window
  | Op.setForegroundWindow window => Cinder.setForegroundWindow app window
  | Op.hideCursor => Cinder.hideCursor app
  | Op.showCursor => Cinder.showCursor app
  | Op.sleepUntilNextFrame currentSeconds => Cinder.sleepUntilNextFrame P app currentSeconds

/-- The object after a sequence of such calls. -/
def applyOps (P : Platform) (env : World) (app : AppImplLinux) (ops : List Op) : AppImplLinux :=
  ops.foldl (Op.apply P env) app

/-- What the surroundings do during one iteration of the loop of `run`: the
calls the application makes from `privateUpdate__`, the calls made from the
handlers that `glfwPollEvents` dispatches, the clock reading in
`sleepUntilNextFrame`, and the native close state of each window, read through
the window, at the end of the iteration. -/
structure Frame where
  updateOps : List Op
  pollOps : List Op
  currentSeconds : ℚ
  shouldClose : WindowRef → Bool

/-- One iteration of the loop of `run`.  The close state is that of the window
`mMainWindow` refers to. -/
def runIteration (P : Platform) (env : World) (app : AppImplLinux) (frame : Frame) :
    AppImplLinux :=
  let app1 := applyOps P env { app with calls := app.calls ++ [Call.privateUpdate] }
    frame.updateOps
  let app2 : AppImplLinux := { app1 with calls := app1.calls ++ app1.mWindows.map Call.draw }
  let app3 := applyOps P env { app2 with calls := app2.calls ++ [Call.glfwPollEvents] }
    frame.pollOps
  let app4 := sleepUntilNextFrame P app3 frame.currentSeconds
  let app5 : AppImplLinux :=
    { app4 with calls := app4.calls ++ [Call.glfwWindowShouldClose app4.mMainWindow] }
  if frame.shouldClose app5.mMainWindow = true then { app5 with mShouldQuit := true }
  else app5

/-- The loop `while( ! mShouldQuit )` of `run` over the frames the surroundings
supply: the object when the loop ends and the number of iterations performed,
or `none` when the frames are used up while the loop is still running. -/
def whileNotShouldQuit (P : Platform) (env : World) (app : AppImplLinux) :
    List Frame → Option (AppImplLinux × Nat)
  | [] => if app.mShouldQuit = true then some (app, 0) else none
  | frame :: rest =>
      if app.mShouldQuit = true then some (app, 0)
      else
        match whileNotShouldQuit P env (runIteration P env app frame) rest with
        | some (final, n) => some (final, n + 1)
        | none => none

/-- The function `AppImplLinux::run`; `setupOps` are the calls the application
makes from `privateSetup__`.  The result is `none` when the frames are used up
while the loop is still running. -/
def run (P : Platform) (env : World) (app : AppImplLinux) (setupOps : List Op)
    (frames : List Frame) : Option AppImplLinux :=
  let app1 := applyOps P env { app with calls := app.calls ++ [Call.privateSetup] } setupOps
  let app2 : AppImplLinux := { app1 with mSetupHasBeenCalled := true }
  match whileNotShouldQuit P env app2 frames with
  | some (app3, _) =>
      some { app3 with mMainWindow := none,
                       calls := app3.calls ++
                         [Call.resetMainWindow app3.mMainWindow, Call.glfwTerminate] }
  | none => none

/-! ## Sample states -/

/-- An application object without windows, with the given frame timing. -/
def timingOnly (rate : ℚ) (enabled : Bool) (next : ℚ) : AppImplLinux :=
  { mFrameRate := rate, mFrameRateEnabled := enabled, mNextFrameTime := next,
    mShouldQuit := false, mSetupHasBeenCalled := false, mWindows := [],
    mMainWindow := none, mActiveWindow := none, mForegroundWindow := none, calls := [] }

/-- A routing table with the single entry `7 ↦ window 1`. -/
def sampleCallbacks : GlfwCallbacks :=
  { sWindowMapping := [(7, some 1)], calls := [] }

/-- GLFW input in which exactly the listed buttons are pressed, on every
window, with the cursor at `(12.75, -3.5)`. -/
def sampleInput (pressed : List Int) : GlfwInput :=
  { mouseButton := fun _ b => if b ∈ pressed then GLFW_PRESS else GLFW_RELEASE,
    cursorPos := fun _ => (51 / 4, -7 / 2) }

/-- The format `createWindow` hands to the window constructor: the format
given, with the clone of the default renderer when it names no renderer. -/
def formatUsed (env : World) (format : Format) : Format :=
  if format.renderer = none then { format with renderer := env.defaultRendererClone }
  else format

/-- The window object `createWindow` appends to the list. -/
def windowCreated (env : World) (app : AppImplLinux) (format : Format) : WindowImplLinux :=
  let parts := env.newWindowImpl app.calls.length (formatUsed env format)
    (findSharedRenderer app (formatUsed env format).renderer)
  { mWindowRef := parts.mWindowRef, mNative := parts.mNative, mRenderer := parts.mRenderer,
    format := formatUsed env format,
    sharedRenderer := findSharedRenderer app (formatUsed env format).renderer }

/-- Invariant of the constructor loop: the main window is empty while the list
is empty, and afterwards it is the non-empty window reference of the first
entry of the list. -/
def mainIsFirst (app : AppImplLinux) : Prop :=
  match app.mWindows with
  | [] => app.mMainWindow = none
  | first :: _ => app.mMainWindow = first.mWindowRef ∧ first.mWindowRef ≠ none

instance (app : AppImplLinux) : Decidable (mainIsFirst app) := by
  unfold mainIsFirst
  cases app.mWindows <;> exact inferInstance

/-- Surroundings in which `glfwInit` succeeds and the `n`-th constructed window
object holds the window reference `n + 100` and the native handle `n + 200`. -/
def sampleWorld : World :=
  { glfwInit := true, defaultRendererClone := some ⟨1⟩,
    newWindowImpl := fun n format _ => ⟨some (n + 100), n + 200, format.renderer⟩ }

/-- Raw member values: flags cleared, numbers zero. -/
def sampleRaw : RawMembers :=
  { mFrameRate := 0, mFrameRateEnabled := false, mNextFrameTime := 0, mShouldQuit := false,
    mSetupHasBeenCalled := false }

/-- Settings with two window formats, at 60 frames per second. -/
def sampleSettings : Settings :=
  { frameRate := 60, frameRateEnabled := true,
    windowFormats := [⟨none, 1⟩, ⟨some ⟨2⟩, 2⟩], defaultWindowFormat := ⟨none, 0⟩ }

/-- An application object whose window list holds two windows, with the window
references 100 and 101 and the native handles 200 and 201. -/
def twoWindows : AppImplLinux :=
  { timingOnly 60 true 0 with
    mWindows := [⟨some 100, 200, none, ⟨none, 1⟩, none⟩, ⟨some 101, 201, none, ⟨none, 2⟩, none⟩],
    mMainWindow := some 100, mActiveWindow := some 101 }

/-- A frame in which the application makes the given calls from its update and
from its event handlers, at clock reading 0, with the given close states. -/
def sampleFrame (ops : List Op) (shouldClose : WindowRef → Bool) : Frame :=
  { updateOps := ops, pollOps := ops, currentSeconds := 0, shouldClose := shouldClose }

/-! ## Facts about the conversions -/

lemma truncate_of_nonneg {x : ℚ} (h : 0 ≤ x) : truncate x = ⌊x⌋ := by
  simp [truncate, h]

lemma truncate_nonneg {x : ℚ} (h : 0 ≤ x) : 0 ≤ truncate x := by
  rw [truncate_of_nonneg h]; exact Int.floor_nonneg.mpr h

lemma castInt_of_inRange (P : Platform) {x : ℚ} (h : inIntRange x) :
    castInt P x = truncate x := by
  simp [castInt, h]

lemma castULong_of_inRange (P : Platform) {x : ℚ} (h : inULongRange x) :
    castULong P x = truncate x := by
  simp [castULong, h]

lemma wrapInt_lt (n : Int) : wrapInt n < 2147483648 := by
  unfold wrapInt; omega

lemma wrapInt_ge (n : Int) : -2147483648 ≤ wrapInt n := by
  unfold wrapInt; omega

lemma castInt_le (P : Platform) (x : ℚ) : castInt P x ≤ INT_MAX := by
  unfold castInt
  split
  · rename_i h; exact h.2
  · have := wrapInt_lt (P.intOutOfRange x); unfold INT_MAX; omega

/-! ## Facts about the frame pacing routine -/

lemma sleepUntilNextFrame_mNextFrameTime (P : Platform) (app : AppImplLinux) (cur : ℚ) :
    (sleepUntilNextFrame P app cur).mNextFrameTime = nextFrameTime P app cur := by
  unfold sleepUntilNextFrame
  cases requestedSleep P app cur <;> rfl

lemma secondsPerFrame_pos {app : AppImplLinux} (hr : 0 < app.mFrameRate) :
    0 < secondsPerFrame app := by
  unfold secondsPerFrame; positivity

/-- When the loop is more than a second late and the quotient fits in `int`,
the number of skipped frames is the floor of the quotient and is not negative. -/
lemma numSkipFrames_eq_floor (P : Platform) {app : AppImplLinux} {cur : ℚ}
    (hr : 0 < app.mFrameRate) (hlate : elapsedSeconds app cur > 1)
    (hfit : inIntRange (elapsedSeconds app cur / secondsPerFrame app)) :
    numSkipFrames P app cur = ⌊elapsedSeconds app cur / secondsPerFrame app⌋ := by
  have hs := secondsPerFrame_pos hr
  have hq : 0 ≤ elapsedSeconds app cur / secondsPerFrame app :=
    div_nonneg (by linarith) hs.le
  rw [numSkipFrames, castInt_of_inRange P hfit, truncate_of_nonneg hq]

lemma nextFrameTime_of_late (P : Platform) {app : AppImplLinux} {cur : ℚ}
    (hr : 0 < app.mFrameRate) (hlate : elapsedSeconds app cur > 1)
    (hfit : inIntRange (elapsedSeconds app cur / secondsPerFrame app)) :
    nextFrameTime P app cur
      = app.mNextFrameTime
        + (⌊elapsedSeconds app cur / secondsPerFrame app⌋ : ℚ) * secondsPerFrame app
        + secondsPerFrame app := by
  simp only [nextFrameTime, hlate, if_true, numSkipFrames_eq_floor P hr hlate hfit]

lemma nextFrameTime_of_not_late (P : Platform) {app : AppImplLinux} {cur : ℚ}
    (h : elapsedSeconds app cur ≤ 1) :
    nextFrameTime P app cur = app.mNextFrameTime + secondsPerFrame app := by
  have : ¬ elapsedSeconds app cur > 1 := not_lt.mpr h
  simp only [nextFrameTime, this, if_false]

/-- After a skip the schedule lies within one frame period after the present. -/
lemma nextFrameTime_caught_up (P : Platform) {app : AppImplLinux} {cur : ℚ}
    (hr : 0 < app.mFrameRate) (hlate : elapsedSeconds app cur > 1)
    (hfit : inIntRange (elapsedSeconds app cur / secondsPerFrame app)) :
    cur < nextFrameTime P app cur ∧ nextFrameTime P app cur ≤ cur + secondsPerFrame app := by
  have hs := secondsPerFrame_pos hr
  rw [nextFrameTime_of_late P hr hlate hfit]
  set q := elapsedSeconds app cur / secondsPerFrame app with hq
  have hmul : q * secondsPerFrame app = elapsedSeconds app cur := by
    rw [hq]; field_simp
  have h1 : (⌊q⌋ : ℚ) ≤ q := Int.floor_le q
  have h2 : q < ⌊q⌋ + 1 := Int.lt_floor_add_one q
  have h3 : (⌊q⌋ : ℚ) * secondsPerFrame app ≤ q * secondsPerFrame app :=
    mul_le_mul_of_nonneg_right h1 hs.le
  have h4 : q * secondsPerFrame app < ((⌊q⌋ : ℚ) + 1) * secondsPerFrame app :=
    mul_lt_mul_of_pos_right h2 hs
  have he : elapsedSeconds app cur = cur - app.mNextFrameTime := rfl
  constructor
  · nlinarith
  · nlinarith

/-- Every call moves the schedule forward by at least one frame period, as long
as the skip count it computes fits in `int`. -/
lemma nextFrameTime_advances (P : Platform) {app : AppImplLinux} {cur : ℚ}
    (hr : 0 < app.mFrameRate)
    (hfit : elapsedSeconds app cur > 1 →
      inIntRange (elapsedSeconds app cur / secondsPerFrame app)) :
    app.mNextFrameTime + secondsPerFrame app ≤ nextFrameTime P app cur := by
  by_cases hlate : elapsedSeconds app cur > 1
  · have hs := secondsPerFrame_pos hr
    rw [nextFrameTime_of_late P hr hlate (hfit hlate)]
    have hq : 0 ≤ elapsedSeconds app cur / secondsPerFrame app :=
      div_nonneg (by linarith) hs.le
    have hf : (0 : ℚ) ≤ (⌊elapsedSeconds app cur / secondsPerFrame app⌋ : ℚ) := by
      exact_mod_cast Int.floor_nonneg.mpr hq
    have := mul_nonneg hf hs.le
    linarith
  · rw [nextFrameTime_of_not_late P (not_lt.mp hlate)]

/-! ## Skip-ahead correction -/

/-- Claim C1, amended.  With a frame rate `r > 0` and `spf = 1 / r`: when the
clock is more than one second past the stored next-frame time and the quotient
`(cur - next) / spf` fits in `int`, the updated next-frame time is
`next + floor((cur - next) / spf) * spf + spf` and lies in `(cur, cur + spf]`;
when the clock is at most one second past it, the updated time is `next + spf`. -/
theorem sleepUntilNextFrame_skip_ahead (P : Platform) (app : AppImplLinux) (cur : ℚ)
    (hr : 0 < app.mFrameRate) :
    (cur - app.mNextFrameTime > 1 →
      inIntRange ((cur - app.mNextFrameTime) / (1 / app.mFrameRate)) →
        (sleepUntilNextFrame P app cur).mNextFrameTime
            = app.mNextFrameTime
              + (⌊(cur - app.mNextFrameTime) / (1 / app.mFrameRate)⌋ : ℚ) * (1 / app.mFrameRate)
              + 1 / app.mFrameRate
          ∧ cur < (sleepUntilNextFrame P app cur).mNextFrameTime
          ∧ (sleepUntilNextFrame P app cur).mNextFrameTime ≤ cur + 1 / app.mFrameRate)
    ∧ (cur - app.mNextFrameTime ≤ 1 →
        (sleepUntilNextFrame P app cur).mNextFrameTime
          = app.mNextFrameTime + 1 / app.mFrameRate) := by
  rw [sleepUntilNextFrame_mNextFrameTime]
  refine ⟨fun hlate hfit => ?_, fun h => ?_⟩
  · exact ⟨nextFrameTime_of_late P hr hlate hfit,
      (nextFrameTime_caught_up P hr hlate hfit).1,
      (nextFrameTime_caught_up P hr hlate hfit).2⟩
  · exact nextFrameTime_of_not_late P h

/-- The amended claim C1 at 60 frames per second: a loop that is 2.51 seconds
late skips 150 frames, and one that is a quarter of a second late skips none. -/
theorem sleepUntilNextFrame_skip_ahead_witness :
    ((sleepUntilNextFrame x86_64 (timingOnly 60 true 0) (251 / 100)).mNextFrameTime
        = 0 + (⌊(251 / 100 - 0) / (1 / 60 : ℚ)⌋ : ℚ) * (1 / 60) + 1 / 60
      ∧ (251 / 100 : ℚ) < (sleepUntilNextFrame x86_64 (timingOnly 60 true 0) (251 / 100)).mNextFrameTime
      ∧ (sleepUntilNextFrame x86_64 (timingOnly 60 true 0) (251 / 100)).mNextFrameTime
          ≤ 251 / 100 + 1 / 60)
    ∧ (sleepUntilNextFrame x86_64 (timingOnly 60 true 0) (1 / 4)).mNextFrameTime = 0 + 1 / 60 :=
  ⟨(sleepUntilNextFrame_skip_ahead x86_64 (timingOnly 60 true 0) (251 / 100)
      (by norm_num [timingOnly])).1 (by norm_num [timingOnly])
      (by norm_num [timingOnly, inIntRange, truncate, INT_MIN, INT_MAX]),
   (sleepUntilNextFrame_skip_ahead x86_64 (timingOnly 60 true 0) (1 / 4)
      (by norm_num [timingOnly])).2 (by norm_num [timingOnly])⟩

/-- Claim C1 as stated fails where the skip count does not fit in `int`: at 60
frames per second, with a stored next-frame time of `-40000000` and the clock at
0, the quotient is `2400000000`; the claimed next-frame time `1 / 60` is
produced on no platform, and on x86-64 the stored time moves back to
`-4547483647 / 60`, which is not after the clock reading. -/
theorem sleepUntilNextFrame_skip_ahead_counterexample :
    (0 : ℚ) < (timingOnly 60 true (-40000000)).mFrameRate
    ∧ (0 : ℚ) - (timingOnly 60 true (-40000000)).mNextFrameTime > 1
    ∧ (¬ ∃ P : Platform,
        (sleepUntilNextFrame P (timingOnly 60 true (-40000000)) 0).mNextFrameTime
          = -40000000 + (⌊(0 - (-40000000)) / (1 / 60 : ℚ)⌋ : ℚ) * (1 / 60) + 1 / 60)
    ∧ (sleepUntilNextFrame x86_64 (timingOnly 60 true (-40000000)) 0).mNextFrameTime
        = -4547483647 / 60
    ∧ ¬ ((0 : ℚ) < (sleepUntilNextFrame x86_64 (timingOnly 60 true (-40000000)) 0).mNextFrameTime) := by
  have hq : ((0 : ℚ) - (-40000000)) / (1 / 60) = 2400000000 := by norm_num
  have hout : ¬ inIntRange (2400000000 : ℚ) := by
    norm_num [inIntRange, truncate, INT_MIN, INT_MAX]
  have hnext : ∀ P : Platform,
      (sleepUntilNextFrame P (timingOnly 60 true (-40000000)) 0).mNextFrameTime
        = -40000000 + (wrapInt (P.intOutOfRange 2400000000) : ℚ) * (1 / 60) + 1 / 60 := by
    intro P
    rw [sleepUntilNextFrame_mNextFrameTime]
    simp only [nextFrameTime, numSkipFrames, elapsedSeconds, secondsPerFrame, timingOnly,
      castInt, hq, hout, if_false]
    norm_num
  refine ⟨by norm_num [timingOnly], by norm_num [timingOnly], ?_, ?_, ?_⟩
  · rintro ⟨P, hP⟩
    rw [hnext P, hq] at hP
    have hlt := wrapInt_lt (P.intOutOfRange 2400000000)
    have hc : (wrapInt (P.intOutOfRange 2400000000) : ℚ) < 2147483648 := by exact_mod_cast hlt
    norm_num at hP
    linarith
  · rw [hnext x86_64]; norm_num [x86_64, wrapInt, INT_MIN]
  · rw [hnext x86_64]; norm_num [x86_64, wrapInt, INT_MIN]

/-! ## Frame pacing over several calls -/

lemma sleepUntilNextFrame_mFrameRate (P : Platform) (app : AppImplLinux) (cur : ℚ) :
    (sleepUntilNextFrame P app cur).mFrameRate = app.mFrameRate := by
  unfold sleepUntilNextFrame
  cases requestedSleep P app cur <;> rfl

lemma sleepUntilNextFrame_mFrameRateEnabled (P : Platform) (app : AppImplLinux) (cur : ℚ) :
    (sleepUntilNextFrame P app cur).mFrameRateEnabled = app.mFrameRateEnabled := by
  unfold sleepUntilNextFrame
  cases requestedSleep P app cur <;> rfl

lemma secondsPerFrame_sleepUntilNextFrame (P : Platform) (app : AppImplLinux) (cur : ℚ) :
    secondsPerFrame (sleepUntilNextFrame P app cur) = secondsPerFrame app := by
  unfold secondsPerFrame; rw [sleepUntilNextFrame_mFrameRate]

lemma afterCalls_mFrameRate (P : Platform) (curs : List ℚ) :
    ∀ app : AppImplLinux, (afterCalls P app curs).mFrameRate = app.mFrameRate := by
  induction curs with
  | nil => intro app; rfl
  | cons c cs ih =>
      intro app
      simp only [afterCalls]
      rw [ih, sleepUntilNextFrame_mFrameRate]

lemma afterCalls_mFrameRateEnabled (P : Platform) (curs : List ℚ) :
    ∀ app : AppImplLinux,
      (afterCalls P app curs).mFrameRateEnabled = app.mFrameRateEnabled := by
  induction curs with
  | nil => intro app; rfl
  | cons c cs ih =>
      intro app
      simp only [afterCalls]
      rw [ih, sleepUntilNextFrame_mFrameRateEnabled]

lemma afterCalls_append (P : Platform) (curs : List ℚ) (last : ℚ) :
    ∀ app : AppImplLinux,
      afterCalls P app (curs ++ [last]) = sleepUntilNextFrame P (afterCalls P app curs) last := by
  induction curs with
  | nil => intro app; rfl
  | cons c cs ih => intro app; exact ih (sleepUntilNextFrame P app c)

lemma allSkipCountsFit_append (P : Platform) (curs : List ℚ) (last : ℚ) :
    ∀ app : AppImplLinux, allSkipCountsFit P app (curs ++ [last]) →
      allSkipCountsFit P app curs ∧ skipCountFits (afterCalls P app curs) last := by
  induction curs with
  | nil =>
      intro app h
      exact ⟨trivial, h.1⟩
  | cons c cs ih =>
      intro app h
      have hh := ih (sleepUntilNextFrame P app c) h.2
      exact ⟨⟨h.1, hh.1⟩, hh.2⟩

/-- After `n` calls whose skip counts fit, the schedule has moved forward by at
least `n` frame periods. -/
lemma afterCalls_mNextFrameTime_ge (P : Platform) (curs : List ℚ) :
    ∀ app : AppImplLinux, 0 < app.mFrameRate → allSkipCountsFit P app curs →
      app.mNextFrameTime + (curs.length : ℚ) * secondsPerFrame app
        ≤ (afterCalls P app curs).mNextFrameTime := by
  induction curs with
  | nil => intro app _ _; simp [afterCalls]
  | cons c cs ih =>
      intro app hr hfit
      have hr2 : 0 < (sleepUntilNextFrame P app c).mFrameRate := by
        rw [sleepUntilNextFrame_mFrameRate]; exact hr
      have h1 := ih (sleepUntilNextFrame P app c) hr2 hfit.2
      rw [secondsPerFrame_sleepUntilNextFrame, sleepUntilNextFrame_mNextFrameTime] at h1
      have h2 := nextFrameTime_advances P hr hfit.1
      simp only [afterCalls, List.length_cons]
      push_cast
      linarith

lemma toUSeconds_nonneg (n : Int) : 0 ≤ toUSeconds n := by
  unfold toUSeconds; omega

lemma inULongRange_of_inUSecondsRange {x : ℚ} (h : inUSecondsRange x) : inULongRange x := by
  unfold inUSecondsRange USECONDS_MAX at h
  unfold inULongRange ULONG_MAX
  omega

/-- A microsecond count that fits in `useconds_t` reaches `usleep` unchanged, and
is the floor of the sleep time in microseconds. -/
lemma toUSeconds_sleepMicroSecs (P : Platform) {app : AppImplLinux} {cur : ℚ}
    (hnn : (0 : ℚ) ≤ sleepTime P app cur * 1000000)
    (hfit : inUSecondsRange (sleepTime P app cur * 1000000)) :
    toUSeconds (sleepMicroSecs P app cur) = ⌊sleepTime P app cur * 1000000⌋ := by
  have hus : sleepMicroSecs P app cur = ⌊sleepTime P app cur * 1000000⌋ := by
    rw [sleepMicroSecs, castULong_of_inRange P (inULongRange_of_inUSecondsRange hfit),
      truncate_of_nonneg hnn]
  unfold inUSecondsRange USECONDS_MAX at hfit
  rw [truncate_of_nonneg hnn] at hfit
  rw [hus]
  unfold toUSeconds
  omega

/-- The return time of a call that sleeps. -/
lemma earliestReturn_of_sleep (P : Platform) (app : AppImplLinux) (cur : ℚ)
    (hcond : app.mFrameRateEnabled = true ∧ nextFrameTime P app cur > cur) :
    earliestReturn P app cur
      = cur + (toUSeconds (sleepMicroSecs P app cur) : ℚ) / 1000000 := by
  unfold earliestReturn requestedSleep
  rw [if_pos hcond]

/-- The return time of a call that does not sleep. -/
lemma earliestReturn_of_no_sleep (P : Platform) (app : AppImplLinux) (cur : ℚ)
    (hcond : ¬ (app.mFrameRateEnabled = true ∧ nextFrameTime P app cur > cur)) :
    earliestReturn P app cur = cur := by
  unfold earliestReturn requestedSleep
  rw [if_neg hcond]

/-- A call does not return before its clock reading. -/
lemma earliestReturn_ge_cur (P : Platform) (app : AppImplLinux) (cur : ℚ) :
    cur ≤ earliestReturn P app cur := by
  by_cases hcond : app.mFrameRateEnabled = true ∧ nextFrameTime P app cur > cur
  · rw [earliestReturn_of_sleep P app cur hcond]
    have h := toUSeconds_nonneg (sleepMicroSecs P app cur)
    have h2 : (0 : ℚ) ≤ (toUSeconds (sleepMicroSecs P app cur) : ℚ) := by exact_mod_cast h
    have h3 : (0 : ℚ) ≤ (toUSeconds (sleepMicroSecs P app cur) : ℚ) / 1000000 := by
      positivity
    linarith
  · rw [earliestReturn_of_no_sleep P app cur hcond]

/-- A call with frame-rate limiting enabled returns less than a microsecond
before the next-frame time it stored, or later. -/
lemma earliestReturn_gt (P : Platform) {app : AppImplLinux} {cur : ℚ}
    (hen : app.mFrameRateEnabled = true) (hfit : sleepFits P app cur) :
    nextFrameTime P app cur - 1 / 1000000 < earliestReturn P app cur := by
  by_cases hlt : nextFrameTime P app cur > cur
  · have hcond : app.mFrameRateEnabled = true ∧ nextFrameTime P app cur > cur := ⟨hen, hlt⟩
    have hst : sleepTime P app cur = nextFrameTime P app cur - cur := by
      unfold sleepTime; exact max_eq_left (by linarith)
    have hnn : (0 : ℚ) ≤ sleepTime P app cur * 1000000 := by rw [hst]; nlinarith
    rw [earliestReturn_of_sleep P app cur hcond,
      toUSeconds_sleepMicroSecs P hnn (hfit hcond)]
    have := Int.lt_floor_add_one (sleepTime P app cur * 1000000)
    rw [hst] at this ⊢
    linarith
  · have hcond : ¬ (app.mFrameRateEnabled = true ∧ nextFrameTime P app cur > cur) :=
      fun h => hlt h.2
    rw [earliestReturn_of_no_sleep P app cur hcond]
    linarith [not_lt.mp hlt]

/-- A call that is not behind schedule returns no later than the next-frame
time it stored, when it returns right after the sleep it requests. -/
lemma earliestReturn_le (P : Platform) {app : AppImplLinux} {cur : ℚ}
    (hfit : sleepFits P app cur) (hsched : cur ≤ nextFrameTime P app cur) :
    earliestReturn P app cur ≤ nextFrameTime P app cur := by
  by_cases hcond : app.mFrameRateEnabled = true ∧ nextFrameTime P app cur > cur
  · have hst : sleepTime P app cur = nextFrameTime P app cur - cur := by
      unfold sleepTime; exact max_eq_left (by linarith [hcond.2])
    have hnn : (0 : ℚ) ≤ sleepTime P app cur * 1000000 := by
      rw [hst]; nlinarith [hcond.2]
    rw [earliestReturn_of_sleep P app cur hcond,
      toUSeconds_sleepMicroSecs P hnn (hfit hcond)]
    have := Int.floor_le (sleepTime P app cur * 1000000)
    rw [hst] at this ⊢
    linarith
  · rw [earliestReturn_of_no_sleep P app cur hcond]
    exact hsched

/-- A quotient that is not negative and does not fit in `int` is at least 2^31. -/
lemma le_of_not_inIntRange {q : ℚ} (hq : 0 ≤ q) (hout : ¬ inIntRange q) :
    (2147483648 : ℚ) ≤ q := by
  have hfl : truncate q = ⌊q⌋ := truncate_of_nonneg hq
  have hnn : 0 ≤ ⌊q⌋ := Int.floor_nonneg.mpr hq
  have hbig : (2147483648 : Int) ≤ ⌊q⌋ := by
    by_contra hlt
    apply hout
    unfold inIntRange
    rw [hfl]
    unfold INT_MIN INT_MAX
    omega
  have h1 : ((2147483648 : Int) : ℚ) ≤ (⌊q⌋ : ℚ) := by exact_mod_cast hbig
  have h2 : (⌊q⌋ : ℚ) ≤ q := Int.floor_le q
  have h3 : ((2147483648 : Int) : ℚ) = 2147483648 := by norm_num
  linarith

/-- Whatever the conversion of the skip count yields, a call either moves the
schedule forward by at least one frame period, or is made at least one frame
period after the next-frame time it finds. -/
lemma nextFrameTime_advances_or_late (P : Platform) {app : AppImplLinux} (cur : ℚ)
    (hr : 0 < app.mFrameRate) :
    app.mNextFrameTime + secondsPerFrame app ≤ nextFrameTime P app cur
    ∨ app.mNextFrameTime + secondsPerFrame app ≤ cur := by
  by_cases hfit : skipCountFits app cur
  · exact Or.inl (nextFrameTime_advances P hr hfit)
  · right
    unfold skipCountFits at hfit
    push_neg at hfit
    obtain ⟨hlate, hout⟩ := hfit
    have hs := secondsPerFrame_pos hr
    have hq : 0 ≤ elapsedSeconds app cur / secondsPerFrame app :=
      div_nonneg (by linarith) hs.le
    have hbig := le_of_not_inIntRange hq hout
    have hge : secondsPerFrame app ≤ elapsedSeconds app cur := by
      have h1 : (1 : ℚ) ≤ elapsedSeconds app cur / secondsPerFrame app := by linarith
      exact (one_le_div hs).mp h1
    have he : elapsedSeconds app cur = cur - app.mNextFrameTime := rfl
    linarith

/-- The initiator mask of `onMousePos` in terms of the two buttons it reads. -/
lemma mousePosInitiator_eq (glfw : GlfwInput) (glfwWindow : GLFWwindow) :
    mousePosInitiator glfw glfwWindow
      = ((if glfw.mouseButton glfwWindow GLFW_MOUSE_BUTTON_LEFT = GLFW_PRESS
            then LEFT_DOWN ||| RIGHT_DOWN else 0)
          ||| (if glfw.mouseButton glfwWindow GLFW_MOUSE_BUTTON_MIDDLE = GLFW_PRESS
            then MIDDLE_DOWN else 0)) := by
  unfold mousePosInitiator
  by_cases hl : glfw.mouseButton glfwWindow GLFW_MOUSE_BUTTON_LEFT = GLFW_PRESS <;>
  by_cases hm : glfw.mouseButton glfwWindow GLFW_MOUSE_BUTTON_MIDDLE = GLFW_PRESS
  · have hl2 := hl.symm
    have hm2 := hm.symm
    simp only [if_pos hl, if_pos hm, if_pos hl2, if_pos hm2]; decide
  · have hl2 := hl.symm
    have hm2 : ¬ GLFW_PRESS = glfw.mouseButton glfwWindow GLFW_MOUSE_BUTTON_MIDDLE :=
      fun h => hm h.symm
    simp only [if_pos hl, if_neg hm, if_pos hl2, if_neg hm2]; decide
  · have hl2 : ¬ GLFW_PRESS = glfw.mouseButton glfwWindow GLFW_MOUSE_BUTTON_LEFT :=
      fun h => hl h.symm
    have hm2 := hm.symm
    simp only [if_neg hl, if_pos hm, if_neg hl2, if_pos hm2]
  · have hl2 : ¬ GLFW_PRESS = glfw.mouseButton glfwWindow GLFW_MOUSE_BUTTON_LEFT :=
      fun h => hl h.symm
    have hm2 : ¬ GLFW_PRESS = glfw.mouseButton glfwWindow GLFW_MOUSE_BUTTON_MIDDLE :=
      fun h => hm h.symm
    simp only [if_neg hl, if_neg hm, if_neg hl2, if_neg hm2]; decide

/-- Claim C10.  For a handle registered to a window `w` and any pressed states
of the buttons, `onMousePos` emits exactly one event, on `w`: a mouse-drag if
the left or the middle button is pressed, a mouse-move otherwise.  The
initiator mask is built from the left and middle buttons alone, it contains
`RIGHT_DOWN` exactly when the left button is pressed, and two inputs that agree
on the left and middle buttons give the same result whatever the right button. -/
theorem onMousePos_move_or_drag (P : Platform) (cb : GlfwCallbacks) (glfw : GlfwInput)
    (activeWindow : WindowRef) (glfwWindow : GLFWwindow) (w : WindowRef) (mouseX mouseY : ℚ)
    (hreg : mapFind glfwWindow cb.sWindowMapping = some w) :
    (∃ event : MouseEvent,
      cb.onMousePos P glfw activeWindow glfwWindow mouseX mouseY
        = [⟨w,
            if glfw.mouseButton glfwWindow GLFW_MOUSE_BUTTON_LEFT = GLFW_PRESS
                ∨ glfw.mouseButton glfwWindow GLFW_MOUSE_BUTTON_MIDDLE = GLFW_PRESS
              then Signal.mouseDrag else Signal.mouseMove,
            event⟩]
      ∧ event.initiator
          = ((if glfw.mouseButton glfwWindow GLFW_MOUSE_BUTTON_LEFT = GLFW_PRESS
                then LEFT_DOWN ||| RIGHT_DOWN else 0)
              ||| (if glfw.mouseButton glfwWindow GLFW_MOUSE_BUTTON_MIDDLE = GLFW_PRESS
                then MIDDLE_DOWN else 0))
      ∧ (event.initiator &&& RIGHT_DOWN = RIGHT_DOWN
          ↔ glfw.mouseButton glfwWindow GLFW_MOUSE_BUTTON_LEFT = GLFW_PRESS)
      ∧ event.window = activeWindow
      ∧ event.x = castInt P mouseX ∧ event.y = castInt P mouseY)
    ∧ (glfw.mouseButton glfwWindow GLFW_MOUSE_BUTTON_LEFT ≠ GLFW_PRESS →
        glfw.mouseButton glfwWindow GLFW_MOUSE_BUTTON_MIDDLE ≠ GLFW_PRESS →
        glfw.mouseButton glfwWindow GLFW_MOUSE_BUTTON_RIGHT = GLFW_PRESS →
        cb.onMousePos P glfw activeWindow glfwWindow mouseX mouseY
          = [⟨w, Signal.mouseMove,
              ⟨activeWindow, 0, castInt P mouseX, castInt P mouseY, 0, 0, 0⟩⟩])
    ∧ ∀ glfw2 : GlfwInput,
        glfw2.mouseButton glfwWindow GLFW_MOUSE_BUTTON_LEFT
          = glfw.mouseButton glfwWindow GLFW_MOUSE_BUTTON_LEFT →
        glfw2.mouseButton glfwWindow GLFW_MOUSE_BUTTON_MIDDLE
          = glfw.mouseButton glfwWindow GLFW_MOUSE_BUTTON_MIDDLE →
        cb.onMousePos P glfw2 activeWindow glfwWindow mouseX mouseY
          = cb.onMousePos P glfw activeWindow glfwWindow mouseX mouseY := by
  refine ⟨?_, ?_, ?_⟩
  · refine ⟨⟨activeWindow, mousePosInitiator glfw glfwWindow, castInt P mouseX,
      castInt P mouseY, 0, 0, 0⟩, ?_, ?_, ?_, rfl, rfl, rfl⟩
    · rw [GlfwCallbacks.onMousePos, hreg, mousePosInitiator_eq]
      by_cases hl : glfw.mouseButton glfwWindow GLFW_MOUSE_BUTTON_LEFT = GLFW_PRESS <;>
      by_cases hm : glfw.mouseButton glfwWindow GLFW_MOUSE_BUTTON_MIDDLE = GLFW_PRESS <;>
      simp [hl, hm, LEFT_DOWN, MIDDLE_DOWN, RIGHT_DOWN]
    · exact mousePosInitiator_eq glfw glfwWindow
    · show mousePosInitiator glfw glfwWindow &&& RIGHT_DOWN = RIGHT_DOWN ↔ _
      rw [mousePosInitiator_eq]
      by_cases hl : glfw.mouseButton glfwWindow GLFW_MOUSE_BUTTON_LEFT = GLFW_PRESS <;>
      by_cases hm : glfw.mouseButton glfwWindow GLFW_MOUSE_BUTTON_MIDDLE = GLFW_PRESS <;>
      simp [hl, hm, LEFT_DOWN, MIDDLE_DOWN, RIGHT_DOWN] <;> decide
  · intro hl hm _
    rw [GlfwCallbacks.onMousePos, hreg, mousePosInitiator_eq]
    simp [hl, hm]
  · intro glfw2 h1 h2
    rw [GlfwCallbacks.onMousePos, GlfwCallbacks.onMousePos, hreg, mousePosInitiator_eq,
      mousePosInitiator_eq, h1, h2]

/-- Claim C10 on a sample table: with only the right button held the handle 7,
registered to window 1, receives one mouse-move with an empty initiator mask;
with the left button held it receives a mouse-drag whose mask has `RIGHT_DOWN`. -/
theorem onMousePos_move_or_drag_witness :
    sampleCallbacks.onMousePos x86_64 (sampleInput [GLFW_MOUSE_BUTTON_RIGHT]) (some 1) 7 10 20
        = [⟨some 1, Signal.mouseMove, ⟨some 1, 0, castInt x86_64 10, castInt x86_64 20, 0, 0, 0⟩⟩]
    ∧ ∃ event : MouseEvent,
        sampleCallbacks.onMousePos x86_64 (sampleInput [GLFW_MOUSE_BUTTON_LEFT]) (some 1) 7 10 20
          = [⟨some 1, Signal.mouseDrag, event⟩]
        ∧ event.initiator &&& RIGHT_DOWN = RIGHT_DOWN := by
  refine ⟨(onMousePos_move_or_drag x86_64 sampleCallbacks (sampleInput [GLFW_MOUSE_BUTTON_RIGHT])
      (some 1) 7 (some 1) 10 20 (by decide)).2.1 (by decide) (by decide) (by decide), ?_⟩
  obtain ⟨event, h1, _, h3, _⟩ :=
    (onMousePos_move_or_drag x86_64 sampleCallbacks (sampleInput [GLFW_MOUSE_BUTTON_LEFT])
      (some 1) 7 (some 1) 10 20 (by decide)).1
  refine ⟨event, ?_, h3.mpr (by decide)⟩
  rw [h1]
  simp [sampleInput, GLFW_MOUSE_BUTTON_LEFT, GLFW_PRESS]

/-- The initiator of `onMouseButton` is zero exactly for a button other than
left, middle and right. -/
lemma mouseButtonInitiator_eq_zero_iff (button : Int) :
    mouseButtonInitiator button = 0
      ↔ ¬ (button = GLFW_MOUSE_BUTTON_LEFT ∨ button = GLFW_MOUSE_BUTTON_MIDDLE
            ∨ button = GLFW_MOUSE_BUTTON_RIGHT) := by
  unfold mouseButtonInitiator
  by_cases h1 : button = GLFW_MOUSE_BUTTON_LEFT
  · simp [h1, LEFT_DOWN]
  · by_cases h2 : button = GLFW_MOUSE_BUTTON_MIDDLE
    · simp [h2, MIDDLE_DOWN, LEFT_DOWN, GLFW_MOUSE_BUTTON_LEFT, GLFW_MOUSE_BUTTON_MIDDLE]
    · by_cases h3 : button = GLFW_MOUSE_BUTTON_RIGHT
      · simp [h3, RIGHT_DOWN, MIDDLE_DOWN, LEFT_DOWN, GLFW_MOUSE_BUTTON_LEFT,
          GLFW_MOUSE_BUTTON_MIDDLE, GLFW_MOUSE_BUTTON_RIGHT]
      · simp [h1, h2, h3]

/-- Claim C9.  For a handle registered to a window `w`: when the button is
left, middle or right and the action is press or release, `onMouseButton`
emits exactly one event, on `w`, a mouse-down for press and a mouse-up for
release, with initiator `LEFT_DOWN`, `MIDDLE_DOWN` or `RIGHT_DOWN` by button and
the cursor position converted to `int`, which truncates it whenever the
position fits; for any other button or any other action it emits nothing. -/
theorem onMouseButton_dispatch (P : Platform) (cb : GlfwCallbacks) (glfw : GlfwInput)
    (activeWindow : WindowRef) (glfwWindow : GLFWwindow) (w : WindowRef)
    (button action mod : Int)
    (hreg : mapFind glfwWindow cb.sWindowMapping = some w) :
    ((button = GLFW_MOUSE_BUTTON_LEFT ∨ button = GLFW_MOUSE_BUTTON_MIDDLE
          ∨ button = GLFW_MOUSE_BUTTON_RIGHT) →
      (action = GLFW_PRESS ∨ action = GLFW_RELEASE) →
      cb.onMouseButton P glfw activeWindow glfwWindow button action mod
        = [⟨w,
            if action = GLFW_PRESS then Signal.mouseDown else Signal.mouseUp,
            ⟨activeWindow,
              if button = GLFW_MOUSE_BUTTON_LEFT then LEFT_DOWN
              else if button = GLFW_MOUSE_BUTTON_MIDDLE then MIDDLE_DOWN else RIGHT_DOWN,
              castInt P (glfw.cursorPos glfwWindow).1,
              castInt P (glfw.cursorPos glfwWindow).2, 0, 0, 0⟩⟩])
    ∧ (¬ (button = GLFW_MOUSE_BUTTON_LEFT ∨ button = GLFW_MOUSE_BUTTON_MIDDLE
          ∨ button = GLFW_MOUSE_BUTTON_RIGHT) →
        cb.onMouseButton P glfw activeWindow glfwWindow button action mod = [])
    ∧ (¬ (action = GLFW_PRESS ∨ action = GLFW_RELEASE) →
        cb.onMouseButton P glfw activeWindow glfwWindow button action mod = [])
    ∧ (inIntRange (glfw.cursorPos glfwWindow).1 →
        castInt P (glfw.cursorPos glfwWindow).1 = truncate (glfw.cursorPos glfwWindow).1)
    ∧ (inIntRange (glfw.cursorPos glfwWindow).2 →
        castInt P (glfw.cursorPos glfwWindow).2 = truncate (glfw.cursorPos glfwWindow).2) := by
  refine ⟨fun hb ha => ?_, fun hb => ?_, fun ha => ?_,
    fun h => castInt_of_inRange P h, fun h => castInt_of_inRange P h⟩
  · have hne : (0 : Nat) ≠ mouseButtonInitiator button := fun h =>
      (mouseButtonInitiator_eq_zero_iff button).mp h.symm hb
    have hinit : mouseButtonInitiator button
        = if button = GLFW_MOUSE_BUTTON_LEFT then LEFT_DOWN
          else if button = GLFW_MOUSE_BUTTON_MIDDLE then MIDDLE_DOWN else RIGHT_DOWN := by
      unfold mouseButtonInitiator
      rcases hb with hb | hb | hb <;> simp [hb, GLFW_MOUSE_BUTTON_LEFT,
        GLFW_MOUSE_BUTTON_MIDDLE, GLFW_MOUSE_BUTTON_RIGHT]
    rw [GlfwCallbacks.onMouseButton, hreg]
    simp only [hne, if_true, ne_eq, not_false_eq_true]
    rw [hinit]
    rcases ha with ha | ha
    · simp [ha]
    · simp [ha, GLFW_PRESS, GLFW_RELEASE]
  · have hz := (mouseButtonInitiator_eq_zero_iff button).mpr hb
    rw [GlfwCallbacks.onMouseButton, hreg]
    simp [hz]
  · rw [GlfwCallbacks.onMouseButton, hreg]
    have h1 : ¬ GLFW_PRESS = action := fun h => ha (Or.inl h.symm)
    have h2 : ¬ GLFW_RELEASE = action := fun h => ha (Or.inr h.symm)
    simp [h1, h2]

/-- Claim C9 on a sample table: on handle 7, registered to window 1, pressing
the middle button emits one mouse-down with initiator `MIDDLE_DOWN` and the
cursor position (12.75, -3.5) truncated to (12, -3); a repeat emits nothing. -/
theorem onMouseButton_dispatch_witness :
    sampleCallbacks.onMouseButton x86_64 (sampleInput []) (some 1) 7
        GLFW_MOUSE_BUTTON_MIDDLE GLFW_PRESS 0
      = [⟨some 1, Signal.mouseDown, ⟨some 1, MIDDLE_DOWN, 12, -3, 0, 0, 0⟩⟩]
    ∧ sampleCallbacks.onMouseButton x86_64 (sampleInput []) (some 1) 7
        GLFW_MOUSE_BUTTON_MIDDLE GLFW_REPEAT 0 = [] := by
  have h := onMouseButton_dispatch x86_64 sampleCallbacks (sampleInput []) (some 1) 7 (some 1)
    GLFW_MOUSE_BUTTON_MIDDLE GLFW_PRESS 0 (by decide)
  have hr := (onMouseButton_dispatch x86_64 sampleCallbacks (sampleInput []) (some 1) 7 (some 1)
    GLFW_MOUSE_BUTTON_MIDDLE GLFW_REPEAT 0 (by decide)).2.2.1 (by decide)
  refine ⟨?_, hr⟩
  rw [h.1 (by decide) (by decide)]
  have hx : castInt x86_64 ((sampleInput []).cursorPos 7).1 = 12 := by
    rw [h.2.2.2.1 (by norm_num [sampleInput, inIntRange, truncate, INT_MIN, INT_MAX])]
    norm_num [sampleInput, truncate]
  have ht : truncate ((sampleInput []).cursorPos 7).2 = -3 := by
    have hc : ⌈(-7 / 2 : ℚ)⌉ = -3 := by rw [Int.ceil_eq_iff]; norm_num
    have hn : ¬ (0 : ℚ) ≤ -7 / 2 := by norm_num
    simp only [sampleInput, truncate, if_neg hn, hc]
  have hy : castInt x86_64 ((sampleInput []).cursorPos 7).2 = -3 := by
    rw [h.2.2.2.2 (by rw [inIntRange, ht]; decide), ht]
  rw [hx, hy]
  simp [GLFW_MOUSE_BUTTON_MIDDLE, GLFW_MOUSE_BUTTON_LEFT, GLFW_PRESS]

/-! ## The routing table -/

lemma mapFind_mapAssign_self (key : GLFWwindow) (value : WindowRef) :
    ∀ m : List (GLFWwindow × WindowRef), mapFind key (mapAssign key value m) = some value := by
  intro m
  induction m with
  | nil => simp [mapAssign, mapFind]
  | cons e rest ih =>
      obtain ⟨k, v⟩ := e
      unfold mapAssign
      by_cases h1 : key < k
      · simp [h1, mapFind]
      · by_cases h2 : key = k
        · simp [h2, mapFind]
        · have h3 : ¬ k = key := fun h => h2 h.symm
          simp [h1, h2, h3, mapFind, ih]

lemma mapFind_mapAssign_other {key other : GLFWwindow} (value : WindowRef) (hne : other ≠ key) :
    ∀ m : List (GLFWwindow × WindowRef),
      mapFind other (mapAssign key value m) = mapFind other m := by
  have hne2 : ¬ key = other := fun h => hne h.symm
  intro m
  induction m with
  | nil => simp [mapAssign, mapFind, hne2]
  | cons e rest ih =>
      obtain ⟨k, v⟩ := e
      unfold mapAssign
      by_cases h1 : key < k
      · simp [h1, mapFind, hne2]
      · by_cases h2 : key = k
        · subst h2
          simp [mapFind, hne2]
        · simp only [h1, h2, if_false, mapFind, ih]

lemma mapFind_mapErase_self (key : GLFWwindow) :
    ∀ m : List (GLFWwindow × WindowRef), mapFind key (mapErase key m) = none := by
  intro m
  induction m with
  | nil => simp [mapErase, mapFind]
  | cons e rest ih =>
      obtain ⟨k, v⟩ := e
      by_cases h : k = key
      · simpa [mapErase, h] using ih
      · have : mapErase key ((k, v) :: rest) = (k, v) :: mapErase key rest := by
          simp [mapErase, h]
        rw [this]
        simp [mapFind, h, ih]

lemma mapFind_mapErase_other {key other : GLFWwindow} (hne : other ≠ key) :
    ∀ m : List (GLFWwindow × WindowRef), mapFind other (mapErase key m) = mapFind other m := by
  intro m
  induction m with
  | nil => simp [mapErase, mapFind]
  | cons e rest ih =>
      obtain ⟨k, v⟩ := e
      by_cases h : k = key
      · have h2 : ¬ k = other := fun h3 => hne (h3.symm.trans h)
        have : mapErase key ((k, v) :: rest) = mapErase key rest := by
          simp [mapErase, h]
        rw [this, ih]
        simp [mapFind, h2]
      · have : mapErase key ((k, v) :: rest) = (k, v) :: mapErase key rest := by
          simp [mapErase, h]
        rw [this]
        simp only [mapFind, ih]

/-- The keys after an assignment are the key assigned and the keys before. -/
lemma mem_keys_mapAssign {key : GLFWwindow} {value : WindowRef} {a : GLFWwindow} :
    ∀ m : List (GLFWwindow × WindowRef),
      a ∈ (mapAssign key value m).map Prod.fst → a = key ∨ a ∈ m.map Prod.fst := by
  intro m
  induction m with
  | nil => intro h; simpa [mapAssign] using h
  | cons e rest ih =>
      obtain ⟨k, v⟩ := e
      unfold mapAssign
      by_cases h1 : key < k
      · simp only [h1, if_true, List.map_cons, List.mem_cons]
        tauto
      · by_cases h2 : key = k
        · subst h2
          simp only [h1, if_false, if_true, List.map_cons, List.mem_cons]
          tauto
        · simp only [h1, h2, if_false, List.map_cons, List.mem_cons]
          rintro (h | h)
          · exact Or.inr (Or.inl h)
          · rcases ih h with h3 | h3
            · exact Or.inl h3
            · exact Or.inr (Or.inr h3)

lemma keysIncrease_mapAssign (key : GLFWwindow) (value : WindowRef) :
    ∀ m : List (GLFWwindow × WindowRef), keysIncrease m → keysIncrease (mapAssign key value m) := by
  intro m
  induction m with
  | nil => intro _; simp [keysIncrease, mapAssign]
  | cons e rest ih =>
      obtain ⟨k, v⟩ := e
      intro hm
      unfold keysIncrease at hm
      simp only [List.map_cons, List.pairwise_cons] at hm
      unfold mapAssign
      by_cases h1 : key < k
      · simp only [h1, if_true]
        unfold keysIncrease
        simp only [List.map_cons, List.pairwise_cons, List.mem_cons]
        refine ⟨?_, hm.1, hm.2⟩
        rintro a (ha | ha)
        · rw [ha]; exact h1
        · exact lt_trans h1 (hm.1 a ha)
      · by_cases h2 : key = k
        · subst h2
          simp only [h1, if_false, if_true]
          unfold keysIncrease
          simp only [List.map_cons, List.pairwise_cons]
          exact hm
        · simp only [h1, h2, if_false]
          unfold keysIncrease
          simp only [List.map_cons, List.pairwise_cons]
          refine ⟨?_, ih hm.2⟩
          intro a ha
          rcases mem_keys_mapAssign rest ha with h3 | h3
          · rw [h3]; exact lt_of_le_of_ne (not_lt.mp h1) (Ne.symm h2)
          · exact hm.1 a h3

lemma keysIncrease_mapErase (key : GLFWwindow) (m : List (GLFWwindow × WindowRef))
    (hm : keysIncrease m) : keysIncrease (mapErase key m) := by
  unfold keysIncrease at hm ⊢
  unfold mapErase
  exact (hm.sublist ((List.filter_sublist m).map Prod.fst))

/-- No entry of a table with increasing keys has a key below its first key. -/
lemma filter_key_eq_nil_of_lt (key : GLFWwindow) :
    ∀ m : List (GLFWwindow × WindowRef), (∀ a ∈ m.map Prod.fst, key < a) →
      m.filter (fun e => decide (e.1 = key)) = [] := by
  intro m h
  rw [List.filter_eq_nil_iff]
  intro e he
  have := h e.1 (List.mem_map_of_mem Prod.fst he)
  simp only [decide_eq_true_eq]
  exact ne_of_gt this

/-- After an assignment a table with increasing keys holds exactly one entry
with the key assigned. -/
lemma filter_key_mapAssign (key : GLFWwindow) (value : WindowRef) :
    ∀ m : List (GLFWwindow × WindowRef), keysIncrease m →
      (mapAssign key value m).filter (fun e => decide (e.1 = key)) = [(key, value)] := by
  intro m
  induction m with
  | nil => intro _; simp [mapAssign]
  | cons e rest ih =>
      obtain ⟨k, v⟩ := e
      intro hm
      unfold keysIncrease at hm
      simp only [List.map_cons, List.pairwise_cons] at hm
      unfold mapAssign
      by_cases h1 : key < k
      · have hk : ¬ k = key := ne_of_gt h1
        have hrest := filter_key_eq_nil_of_lt key rest
          (fun a ha => lt_trans h1 (hm.1 a ha))
        simp [h1, hk, hrest]
      · by_cases h2 : key = k
        · subst h2
          have hrest := filter_key_eq_nil_of_lt key rest hm.1
          simp [hrest]
        · have hk : ¬ k = key := fun h => h2 h.symm
          have := ih hm.2
          simp [h1, h2, hk, this]

lemma mapAssign_mapAssign (key : GLFWwindow) (v1 v2 : WindowRef) :
    ∀ m : List (GLFWwindow × WindowRef),
      mapAssign key v2 (mapAssign key v1 m) = mapAssign key v2 m := by
  intro m
  induction m with
  | nil => simp [mapAssign]
  | cons e rest ih =>
      obtain ⟨k, v⟩ := e
      by_cases h1 : key < k
      · simp [mapAssign, h1]
      · by_cases h2 : key = k
        · subst h2
          simp [mapAssign]
        · simp [mapAssign, h1, h2, ih]

/-- What `onMousePos` emits for a handle that the table maps to `w`: one event, on `w`. -/
lemma onMousePos_of_find (P : Platform) (cb : GlfwCallbacks) (glfw : GlfwInput)
    (activeWindow : WindowRef) (glfwWindow : GLFWwindow) (w : WindowRef) (mouseX mouseY : ℚ)
    (hreg : mapFind glfwWindow cb.sWindowMapping = some w) :
    cb.onMousePos P glfw activeWindow glfwWindow mouseX mouseY
      = [⟨w,
          if glfw.mouseButton glfwWindow GLFW_MOUSE_BUTTON_LEFT = GLFW_PRESS
              ∨ glfw.mouseButton glfwWindow GLFW_MOUSE_BUTTON_MIDDLE = GLFW_PRESS
            then Signal.mouseDrag else Signal.mouseMove,
          ⟨activeWindow,
            (if glfw.mouseButton glfwWindow GLFW_MOUSE_BUTTON_LEFT = GLFW_PRESS
                then LEFT_DOWN ||| RIGHT_DOWN else 0)
              ||| (if glfw.mouseButton glfwWindow GLFW_MOUSE_BUTTON_MIDDLE = GLFW_PRESS
                then MIDDLE_DOWN else 0),
            castInt P mouseX, castInt P mouseY, 0, 0, 0⟩⟩] := by
  rw [GlfwCallbacks.onMousePos, hreg, mousePosInitiator_eq]
  by_cases hl : glfw.mouseButton glfwWindow GLFW_MOUSE_BUTTON_LEFT = GLFW_PRESS <;>
  by_cases hm : glfw.mouseButton glfwWindow GLFW_MOUSE_BUTTON_MIDDLE = GLFW_PRESS <;>
  simp [hl, hm, LEFT_DOWN, MIDDLE_DOWN, RIGHT_DOWN]

/-- What `onMouseButton` emits for a handle that the table maps to `w`, for the
left, middle or right button pressed or released: one event, on `w`. -/
lemma onMouseButton_of_find (P : Platform) (cb : GlfwCallbacks) (glfw : GlfwInput)
    (activeWindow : WindowRef) (glfwWindow : GLFWwindow) (w : WindowRef)
    (button action mod : Int)
    (hreg : mapFind glfwWindow cb.sWindowMapping = some w)
    (hb : button = GLFW_MOUSE_BUTTON_LEFT ∨ button = GLFW_MOUSE_BUTTON_MIDDLE
      ∨ button = GLFW_MOUSE_BUTTON_RIGHT)
    (ha : action = GLFW_PRESS ∨ action = GLFW_RELEASE) :
    cb.onMouseButton P glfw activeWindow glfwWindow button action mod
      = [⟨w,
          if action = GLFW_PRESS then Signal.mouseDown else Signal.mouseUp,
          ⟨activeWindow,
            if button = GLFW_MOUSE_BUTTON_LEFT then LEFT_DOWN
            else if button = GLFW_MOUSE_BUTTON_MIDDLE then MIDDLE_DOWN else RIGHT_DOWN,
            castInt P (glfw.cursorPos glfwWindow).1,
            castInt P (glfw.cursorPos glfwWindow).2, 0, 0, 0⟩⟩] := by
  have hne : (0 : Nat) ≠ mouseButtonInitiator button := fun h =>
    (mouseButtonInitiator_eq_zero_iff button).mp h.symm hb
  have hinit : mouseButtonInitiator button
      = if button = GLFW_MOUSE_BUTTON_LEFT then LEFT_DOWN
        else if button = GLFW_MOUSE_BUTTON_MIDDLE then MIDDLE_DOWN else RIGHT_DOWN := by
    unfold mouseButtonInitiator
    rcases hb with hb | hb | hb <;> simp [hb, GLFW_MOUSE_BUTTON_LEFT,
      GLFW_MOUSE_BUTTON_MIDDLE, GLFW_MOUSE_BUTTON_RIGHT]
  rw [GlfwCallbacks.onMouseButton, hreg]
  simp only [hne, if_true, ne_eq, not_false_eq_true]
  rw [hinit]
  rcases ha with ha | ha
  · simp [ha]
  · simp [ha, GLFW_PRESS, GLFW_RELEASE]

/-- Claim C8.  On a routing table with the invariant of `std::map` (keys
increasing strictly, hence unique): after `registerInput(h, w)` the handle `h`
is mapped to `w` and a mouse callback for `h` is routed to `w`: every event of
such a callback is emitted on `w`, the mouse-position callback emits its one
event on `w`, and the mouse-button callback emits its one event on `w` for the
left, middle or right button pressed or released; the invariant holds and the
table has exactly one entry for `h`, so that a second registration replaces the
window of the first; after `unregisterInput(h)` the invariant holds and the
mouse-position and mouse-button callbacks for `h` emit nothing; both operations
leave the lookup of every other handle unchanged. -/
theorem routing_table_finite_map (P : Platform) (cb : GlfwCallbacks) (glfw : GlfwInput)
    (activeWindow : WindowRef) (h : GLFWwindow) (w w2 : WindowRef)
    (hkeys : keysIncrease cb.sWindowMapping) :
    (mapFind h (cb.registerInput h w).sWindowMapping = some w
      ∧ (∀ (x y : ℚ) (e : Emission),
          e ∈ (cb.registerInput h w).onMousePos P glfw activeWindow h x y → e.target = w)
      ∧ (∀ (button action mod : Int) (e : Emission),
          e ∈ (cb.registerInput h w).onMouseButton P glfw activeWindow h button action mod →
            e.target = w)
      ∧ (∀ x y : ℚ,
          (cb.registerInput h w).onMousePos P glfw activeWindow h x y
            = [⟨w,
                if glfw.mouseButton h GLFW_MOUSE_BUTTON_LEFT = GLFW_PRESS
                    ∨ glfw.mouseButton h GLFW_MOUSE_BUTTON_MIDDLE = GLFW_PRESS
                  then Signal.mouseDrag else Signal.mouseMove,
                ⟨activeWindow,
                  (if glfw.mouseButton h GLFW_MOUSE_BUTTON_LEFT = GLFW_PRESS
                      then LEFT_DOWN ||| RIGHT_DOWN else 0)
                    ||| (if glfw.mouseButton h GLFW_MOUSE_BUTTON_MIDDLE = GLFW_PRESS
                      then MIDDLE_DOWN else 0),
                  castInt P x, castInt P y, 0, 0, 0⟩⟩])
      ∧ (∀ button action mod : Int,
          (button = GLFW_MOUSE_BUTTON_LEFT ∨ button = GLFW_MOUSE_BUTTON_MIDDLE
            ∨ button = GLFW_MOUSE_BUTTON_RIGHT) →
          (action = GLFW_PRESS ∨ action = GLFW_RELEASE) →
          (cb.registerInput h w).onMouseButton P glfw activeWindow h button action mod
            = [⟨w,
                if action = GLFW_PRESS then Signal.mouseDown else Signal.mouseUp,
                ⟨activeWindow,
                  if button = GLFW_MOUSE_BUTTON_LEFT then LEFT_DOWN
                  else if button = GLFW_MOUSE_BUTTON_MIDDLE then MIDDLE_DOWN else RIGHT_DOWN,
                  castInt P (glfw.cursorPos h).1, castInt P (glfw.cursorPos h).2,
                  0, 0, 0⟩⟩]))
    ∧ (keysIncrease (cb.registerInput h w).sWindowMapping
      ∧ (cb.registerInput h w).sWindowMapping.filter (fun e => decide (e.1 = h)) = [(h, w)]
      ∧ ((cb.registerInput h w).registerInput h w2).sWindowMapping
          = (cb.registerInput h w2).sWindowMapping
      ∧ ((cb.registerInput h w).registerInput h w2).sWindowMapping.filter
          (fun e => decide (e.1 = h)) = [(h, w2)]
      ∧ ((cb.registerInput h w).registerInput h w2).sWindowMapping.length
          = (cb.registerInput h w).sWindowMapping.length)
    ∧ (keysIncrease (cb.unregisterInput h).sWindowMapping
      ∧ mapFind h (cb.unregisterInput h).sWindowMapping = none
      ∧ (∀ x y : ℚ, (cb.unregisterInput h).onMousePos P glfw activeWindow h x y = [])
      ∧ (∀ button action mod : Int,
          (cb.unregisterInput h).onMouseButton P glfw activeWindow h button action mod = []))
    ∧ (∀ other : GLFWwindow, other ≠ h →
        mapFind other (cb.registerInput h w).sWindowMapping = mapFind other cb.sWindowMapping
        ∧ mapFind other (cb.unregisterInput h).sWindowMapping
            = mapFind other cb.sWindowMapping) := by
  have hfind : mapFind h (cb.registerInput h w).sWindowMapping = some w :=
    mapFind_mapAssign_self h w cb.sWindowMapping
  have hgone : mapFind h (cb.unregisterInput h).sWindowMapping = none :=
    mapFind_mapErase_self h cb.sWindowMapping
  have hkeys1 : keysIncrease (cb.registerInput h w).sWindowMapping :=
    keysIncrease_mapAssign h w cb.sWindowMapping hkeys
  have htwice : ((cb.registerInput h w).registerInput h w2).sWindowMapping
      = (cb.registerInput h w2).sWindowMapping :=
    mapAssign_mapAssign h w w2 cb.sWindowMapping
  have hlen : ∀ m : List (GLFWwindow × WindowRef), keysIncrease m →
      (mapAssign h w2 (mapAssign h w m)).length = (mapAssign h w m).length := by
    intro m
    induction m with
    | nil => intro _; simp [mapAssign]
    | cons e rest ih =>
        obtain ⟨k, v⟩ := e
        intro hm
        unfold keysIncrease at hm
        simp only [List.map_cons, List.pairwise_cons] at hm
        by_cases h1 : h < k
        · simp [mapAssign, h1]
        · by_cases h2 : h = k
          · subst h2; simp [mapAssign]
          · simpa [mapAssign, h1, h2] using ih hm.2
  refine ⟨⟨hfind, ?_, ?_,
      fun x y => onMousePos_of_find P (cb.registerInput h w) glfw activeWindow h w x y hfind,
      fun button action mod hb ha =>
        onMouseButton_of_find P (cb.registerInput h w) glfw activeWindow h w button action mod
          hfind hb ha⟩,
    ⟨hkeys1, filter_key_mapAssign h w cb.sWindowMapping hkeys, htwice,
      ?_, hlen cb.sWindowMapping hkeys⟩, ⟨keysIncrease_mapErase h cb.sWindowMapping hkeys, hgone,
      ?_, ?_⟩, ?_⟩
  · intro x y e he
    rw [GlfwCallbacks.onMousePos, hfind] at he
    dsimp only at he
    split at he <;> · rw [List.mem_singleton] at he; rw [he]
  · intro button action mod e he
    rw [GlfwCallbacks.onMouseButton, hfind] at he
    dsimp only at he
    split at he
    · split at he
      · rw [List.mem_singleton] at he; rw [he]
      · split at he
        · rw [List.mem_singleton] at he; rw [he]
        · exact absurd he (List.not_mem_nil e)
    · exact absurd he (List.not_mem_nil e)
  · rw [htwice]
    exact filter_key_mapAssign h w2 cb.sWindowMapping hkeys
  · intro x y
    rw [GlfwCallbacks.onMousePos, hgone]
  · intro button action mod
    rw [GlfwCallbacks.onMouseButton, hgone]
  · intro other hne
    exact ⟨mapFind_mapAssign_other w hne cb.sWindowMapping,
      mapFind_mapErase_other hne cb.sWindowMapping⟩

/-- Claim C8 on the sample table `7 ↦ window 1`: after registering handle 7
again, for window 2, the table has the single entry `7 ↦ window 2`, a
mouse-position callback for handle 7 with the left button held emits one
mouse-drag on window 2, and a press of the right button emits one mouse-down on
window 2; after unregistering handle 7 a mouse-position callback for it emits
nothing; the lookup of handle 9 is the same after the registration. -/
theorem routing_table_finite_map_witness :
    (sampleCallbacks.registerInput 7 (some 2)).sWindowMapping.filter
        (fun e => decide (e.1 = 7)) = [(7, some 2)]
    ∧ (sampleCallbacks.registerInput 7 (some 2)).onMousePos x86_64
        (sampleInput [GLFW_MOUSE_BUTTON_LEFT]) (some 1) 7 10 20
        = [⟨some 2, Signal.mouseDrag,
            ⟨some 1, LEFT_DOWN ||| RIGHT_DOWN, castInt x86_64 10, castInt x86_64 20, 0, 0, 0⟩⟩]
    ∧ (sampleCallbacks.registerInput 7 (some 2)).onMouseButton x86_64
        (sampleInput [GLFW_MOUSE_BUTTON_LEFT]) (some 1) 7 GLFW_MOUSE_BUTTON_RIGHT GLFW_PRESS 0
        = [⟨some 2, Signal.mouseDown,
            ⟨some 1, RIGHT_DOWN,
              castInt x86_64 ((sampleInput [GLFW_MOUSE_BUTTON_LEFT]).cursorPos 7).1,
              castInt x86_64 ((sampleInput [GLFW_MOUSE_BUTTON_LEFT]).cursorPos 7).2,
              0, 0, 0⟩⟩]
    ∧ (sampleCallbacks.unregisterInput 7).onMousePos x86_64
        (sampleInput [GLFW_MOUSE_BUTTON_LEFT]) (some 1) 7 10 20 = []
    ∧ mapFind 9 (sampleCallbacks.registerInput 7 (some 2)).sWindowMapping
        = mapFind 9 sampleCallbacks.sWindowMapping := by
  have hkeys : keysIncrease sampleCallbacks.sWindowMapping := by
    simp [keysIncrease, sampleCallbacks]
  have h := routing_table_finite_map x86_64 sampleCallbacks (sampleInput [GLFW_MOUSE_BUTTON_LEFT])
    (some 1) 7 (some 2) (some 3) hkeys
  refine ⟨h.2.1.2.1, ?_, ?_, h.2.2.1.2.2.1 10 20, (h.2.2.2 9 (by decide)).1⟩
  · rw [h.1.2.2.2.1 10 20]
    simp [sampleInput, GLFW_MOUSE_BUTTON_LEFT, GLFW_MOUSE_BUTTON_MIDDLE, GLFW_PRESS,
      GLFW_RELEASE]
  · rw [h.1.2.2.2.2 GLFW_MOUSE_BUTTON_RIGHT GLFW_PRESS 0 (by decide) (by decide)]
    simp [GLFW_MOUSE_BUTTON_LEFT, GLFW_MOUSE_BUTTON_MIDDLE, GLFW_MOUSE_BUTTON_RIGHT]

/-! ## The window list -/

lemma createWindow_fst_mWindows (env : World) (app : AppImplLinux) (format : Format) :
    (createWindow env app format).1.mWindows = app.mWindows ++ [windowCreated env app format] := by
  unfold createWindow
  by_cases h : app.mSetupHasBeenCalled = true <;> simp [h, windowCreated, formatUsed]

lemma createWindow_snd (env : World) (app : AppImplLinux) (format : Format) :
    (createWindow env app format).2 = (windowCreated env app format).getWindow := by
  simp [createWindow, windowCreated, formatUsed]

lemma createWindow_fst_mMainWindow (env : World) (app : AppImplLinux) (format : Format) :
    (createWindow env app format).1.mMainWindow = app.mMainWindow := by
  unfold createWindow
  by_cases h : app.mSetupHasBeenCalled = true <;> simp [h]

lemma createWindow_fst_mActiveWindow (env : World) (app : AppImplLinux) (format : Format) :
    (createWindow env app format).1.mActiveWindow = app.mActiveWindow := by
  unfold createWindow
  by_cases h : app.mSetupHasBeenCalled = true <;> simp [h]

lemma createWindow_fst_mShouldQuit (env : World) (app : AppImplLinux) (format : Format) :
    (createWindow env app format).1.mShouldQuit = app.mShouldQuit := by
  unfold createWindow
  by_cases h : app.mSetupHasBeenCalled = true <;> simp [h]

lemma windowCreated_format (env : World) (app : AppImplLinux) (format : Format) :
    (windowCreated env app format).format = formatUsed env format := rfl

/-- One step of the constructor loop appends the created window. -/
lemma createWindows_cons_state (env : World) (app : AppImplLinux) (format : Format)
    (rest : List Format) :
    ∃ app1 : AppImplLinux,
      createWindows env app (format :: rest) = createWindows env app1 rest
      ∧ app1.mWindows = app.mWindows ++ [windowCreated env app format]
      ∧ app1.mMainWindow
          = if app.mMainWindow = none then (windowCreated env app format).mWindowRef
            else app.mMainWindow := by
  by_cases h : app.mMainWindow = none
  · refine ⟨{ (createWindow env app format).1 with
        mMainWindow := (createWindow env app format).2 }, ?_, ?_, ?_⟩
    · simp [createWindows, h]
    · exact createWindow_fst_mWindows env app format
    · simp [h, createWindow_snd, WindowImplLinux.getWindow]
  · refine ⟨(createWindow env app format).1, ?_, ?_, ?_⟩
    · simp [createWindows, h]
    · exact createWindow_fst_mWindows env app format
    · simp [h, createWindow_fst_mMainWindow]

/-- The constructor loop appends one window per format, in the order of the formats. -/
lemma createWindows_mWindows (env : World) (formats : List Format) :
    ∀ app : AppImplLinux, ∃ wins : List WindowImplLinux,
      (createWindows env app formats).mWindows = app.mWindows ++ wins
      ∧ wins.map (fun w => w.format) = formats.map (formatUsed env)
      ∧ wins.length = formats.length := by
  induction formats with
  | nil => intro app; exact ⟨[], by simp [createWindows], rfl, rfl⟩
  | cons format rest ih =>
      intro app
      obtain ⟨app1, hstep, hwins, _⟩ := createWindows_cons_state env app format rest
      obtain ⟨wins, h1, h2, h3⟩ := ih app1
      refine ⟨windowCreated env app format :: wins, ?_, ?_, ?_⟩
      · rw [hstep, h1, hwins]; simp
      · simp [h2, windowCreated_format]
      · simp [h3]

lemma createWindows_mainIsFirst (env : World)
    (href : ∀ (n : Nat) (format : Format) (shared : RendererRef),
      (env.newWindowImpl n format shared).mWindowRef ≠ none)
    (formats : List Format) :
    ∀ app : AppImplLinux, mainIsFirst app → mainIsFirst (createWindows env app formats) := by
  induction formats with
  | nil => intro app h; exact h
  | cons format rest ih =>
      intro app h
      obtain ⟨app1, hstep, hwins, hmain⟩ := createWindows_cons_state env app format rest
      rw [hstep]
      apply ih
      have hne : (windowCreated env app format).mWindowRef ≠ none := href _ _ _
      unfold mainIsFirst at h ⊢
      cases hw : app.mWindows with
      | nil =>
          rw [hw] at h hwins
          simp only at h
          rw [hwins, hmain]
          simp [h, hne]
      | cons first more =>
          rw [hw] at h hwins
          simp only at h
          rw [hwins, hmain]
          simp [h.1, h.2]

lemma advance_get {α : Type} :
    ∀ (l : List α) (i : Nat) (h : i < l.length),
      ∃ rest : List α, advance l i = some (l.get ⟨i, h⟩ :: rest) := by
  intro l
  induction l with
  | nil => intro i h; exact absurd h (Nat.not_lt_zero i)
  | cons a rest ih =>
      intro i h
      cases i with
      | zero => exact ⟨rest, rfl⟩
      | succ j =>
          obtain ⟨r, hr⟩ := ih j (Nat.lt_of_succ_lt_succ h)
          exact ⟨r, by simpa [advance] using hr⟩

lemma getWindowIndex_of_lt (app : AppImplLinux) (index : Nat) (h : index < app.mWindows.length) :
    getWindowIndex app index = Read.value (app.mWindows.get ⟨index, h⟩).mWindowRef := by
  obtain ⟨rest, hr⟩ := advance_get app.mWindows index h
  unfold getWindowIndex
  rw [if_neg (by omega), hr]

/-- Claim C7.  For a window list of length `n = getNumWindows()` and an index
`i`: `getWindowIndex(i)` returns the empty window reference when `i ≥ n` and the
window reference of the `i`-th entry of the list otherwise; in no case does it
read past the end of the list.  The function is a `const` member: it returns a
value and leaves the object, the list included, as it is. -/
theorem getWindowIndex_lookup (app : AppImplLinux) (index : Nat) :
    (index ≥ getNumWindows app → getWindowIndex app index = Read.value none)
    ∧ (∀ h : index < getNumWindows app,
        getWindowIndex app index = Read.value (app.mWindows.get ⟨index, h⟩).mWindowRef)
    ∧ getWindowIndex app index ≠ Read.pastTheEnd := by
  refine ⟨fun h => ?_, fun h => getWindowIndex_of_lt app index h, ?_⟩
  · have hn : index ≥ app.mWindows.length := h
    unfold getWindowIndex
    rw [if_pos hn]
  · by_cases h : index < app.mWindows.length
    · rw [getWindowIndex_of_lt app index h]; simp
    · unfold getWindowIndex
      rw [if_pos (by omega)]; simp

/-- Claim C7 on a list of two windows: index 1 yields the reference of the
second window, index 2 the empty reference. -/
theorem getWindowIndex_lookup_witness :
    getWindowIndex twoWindows 1 = Read.value (some 101)
    ∧ getWindowIndex twoWindows 2 = Read.value none :=
  ⟨(getWindowIndex_lookup twoWindows 1).2.1 (by decide),
   (getWindowIndex_lookup twoWindows 2).1 (by decide)⟩

/-- Claim C6.  The constructor throws if and only if `glfwInit` fails, and the
value thrown is then "::glfwInit failed!"; when it throws, the window list is
empty, no window object has been constructed, and the frame-timing members hold
the values they had before the constructor body; when `glfwInit` succeeds the
constructor does not throw. -/
theorem construct_throws_iff (env : World) (raw : RawMembers) (settings : Settings) :
    ((AppImplLinux.construct env raw settings).thrown ≠ none ↔ env.glfwInit = false)
    ∧ ((AppImplLinux.construct env raw settings).thrown = some "::glfwInit failed!"
        ↔ env.glfwInit = false)
    ∧ ((AppImplLinux.construct env raw settings).thrown ≠ none →
        (AppImplLinux.construct env raw settings).app.mWindows = []
        ∧ (∀ (format : Format) (shared : RendererRef),
            Call.newWindowImpl format shared
              ∉ (AppImplLinux.construct env raw settings).app.calls)
        ∧ (AppImplLinux.construct env raw settings).app.mFrameRate = raw.mFrameRate
        ∧ (AppImplLinux.construct env raw settings).app.mFrameRateEnabled
            = raw.mFrameRateEnabled
        ∧ (AppImplLinux.construct env raw settings).app.mNextFrameTime = raw.mNextFrameTime)
    ∧ (env.glfwInit = true → (AppImplLinux.construct env raw settings).thrown = none) := by
  cases hinit : env.glfwInit
  · simp [AppImplLinux.construct, hinit, AppImplLinux.beforeBody]
  · simp [AppImplLinux.construct, hinit]

/-- Claim C6 at sample inputs: with a failing `glfwInit` the constructor throws
"::glfwInit failed!" and leaves an empty window list; with a succeeding one it
does not throw. -/
theorem construct_throws_iff_witness :
    (AppImplLinux.construct { sampleWorld with glfwInit := false } sampleRaw sampleSettings).thrown
        = some "::glfwInit failed!"
    ∧ (AppImplLinux.construct { sampleWorld with glfwInit := false } sampleRaw
        sampleSettings).app.mWindows = []
    ∧ (AppImplLinux.construct sampleWorld sampleRaw sampleSettings).thrown = none := by
  have h := construct_throws_iff { sampleWorld with glfwInit := false } sampleRaw sampleSettings
  have hthrown := h.2.1.mpr rfl
  exact ⟨hthrown, (h.2.2.1 (h.1.mpr rfl)).1,
    (construct_throws_iff sampleWorld sampleRaw sampleSettings).2.2.2 rfl⟩

/-- Claim C5.  When `glfwInit` succeeds, the constructor, for settings with `n`
window formats, leaves a list of exactly `max(n, 1)` windows, created in the
order of the formats (one window with the default format when `n = 0`), and the
active window returned by `getWindow()` is the last entry; the main window is
the first entry of the list, which is `getWindowIndex(0)`, given that every
constructed window object holds a non-empty window reference.  A later
`createWindow` call appends exactly one window at the end and returns it, and
leaves the earlier entries, the main window and the active window unchanged. -/
theorem construct_window_list (env : World) (raw : RawMembers) (settings : Settings)
    (hinit : env.glfwInit = true) :
    (AppImplLinux.construct env raw settings).thrown = none
    ∧ getNumWindows (AppImplLinux.construct env raw settings).app
        = max settings.windowFormats.length 1
    ∧ (AppImplLinux.construct env raw settings).app.mWindows.map (fun w => w.format)
        = (if settings.windowFormats = [] then [settings.defaultWindowFormat]
            else settings.windowFormats).map (formatUsed env)
    ∧ ((∀ (n : Nat) (format : Format) (shared : RendererRef),
          (env.newWindowImpl n format shared).mWindowRef ≠ none) →
        ∃ first : WindowImplLinux,
          (AppImplLinux.construct env raw settings).app.mWindows.head? = some first
          ∧ (AppImplLinux.construct env raw settings).app.mMainWindow = first.mWindowRef
          ∧ getWindowIndex (AppImplLinux.construct env raw settings).app 0
              = Read.value (AppImplLinux.construct env raw settings).app.mMainWindow)
    ∧ (∃ back : WindowImplLinux,
        (AppImplLinux.construct env raw settings).app.mWindows.getLast? = some back
        ∧ getWindow (AppImplLinux.construct env raw settings).app = back.getWindow)
    ∧ ∀ (app : AppImplLinux) (format : Format),
        ∃ win : WindowImplLinux,
          (createWindow env app format).1.mWindows = app.mWindows ++ [win]
          ∧ (createWindow env app format).2 = win.getWindow
          ∧ win.format = formatUsed env format
          ∧ (createWindow env app format).1.mMainWindow = app.mMainWindow
          ∧ (createWindow env app format).1.mActiveWindow = app.mActiveWindow := by
  have hinit2 : ¬ env.glfwInit = false := by rw [hinit]; simp
  -- the state in which the loop over the formats starts
  set app1 : AppImplLinux :=
    { AppImplLinux.beforeBody raw with
      calls := [Call.glfwSetErrorCallback, Call.glfwInit],
      mFrameRate := settings.frameRate,
      mFrameRateEnabled := settings.frameRateEnabled } with happ1
  set formats : List Format :=
    if settings.windowFormats = [] then [settings.defaultWindowFormat]
    else settings.windowFormats with hformats
  have hformats2 : (if settings.windowFormats.isEmpty = true then
        settings.windowFormats ++ [settings.defaultWindowFormat]
      else settings.windowFormats) = formats := by
    rw [hformats]
    cases hw : settings.windowFormats <;> simp
  have hlen : formats.length = max settings.windowFormats.length 1 := by
    rw [hformats]
    cases hw : settings.windowFormats with
    | nil => simp
    | cons a l => simp
  obtain ⟨wins, hwins, hmap, hwlen⟩ := createWindows_mWindows env formats app1
  have hempty : app1.mWindows = [] := rfl
  rw [hempty, List.nil_append] at hwins
  have hne : wins ≠ [] := by
    intro h
    rw [h] at hwlen
    simp only [List.length_nil] at hwlen
    omega
  -- the constructed object
  have hctor : AppImplLinux.construct env raw settings
      = ⟨none, match (createWindows env app1 formats).mWindows.getLast? with
          | some back => setWindow (createWindows env app1 formats) back.getWindow
          | none => createWindows env app1 formats⟩ := by
    unfold AppImplLinux.construct
    simp only [hinit2, if_false, hformats2]
    rfl
  obtain ⟨back, hback⟩ : ∃ back, wins.getLast? = some back := by
    cases hl : wins.getLast? with
    | none => exact absurd (List.getLast?_eq_none_iff.mp hl) hne
    | some b => exact ⟨b, rfl⟩
  have hfinal : (AppImplLinux.construct env raw settings).app
      = setWindow (createWindows env app1 formats) back.getWindow := by
    rw [hctor, hwins, hback]
  have hfw : (AppImplLinux.construct env raw settings).app.mWindows = wins := by
    rw [hfinal]; exact hwins
  have hfm : (AppImplLinux.construct env raw settings).app.mMainWindow
      = (createWindows env app1 formats).mMainWindow := by
    rw [hfinal]; rfl
  refine ⟨by rw [hctor], ?_, ?_, ?_, ?_, ?_⟩
  · unfold getNumWindows
    rw [hfw, hwlen, hlen]
  · rw [hfw, hmap]
  · intro href
    have hmain := createWindows_mainIsFirst env href formats app1 (by
      unfold mainIsFirst; rw [hempty]; rfl)
    cases hw : wins with
    | nil => exact absurd hw hne
    | cons first more =>
        unfold mainIsFirst at hmain
        rw [hwins, hw] at hmain
        simp only at hmain
        refine ⟨first, by rw [hfw, hw]; rfl, by rw [hfm]; exact hmain.1, ?_⟩
        have hpos : 0 < (AppImplLinux.construct env raw settings).app.mWindows.length := by
          rw [hfw, hw]; simp
        rw [getWindowIndex_of_lt _ 0 hpos, hfm, hmain.1]
        congr 2
        simp [hfw, hw]
  · exact ⟨back, by rw [hfw]; exact hback, by rw [hfinal]; rfl⟩
  · intro app format
    exact ⟨windowCreated env app format, createWindow_fst_mWindows env app format,
      createWindow_snd env app format, rfl, createWindow_fst_mMainWindow env app format,
      createWindow_fst_mActiveWindow env app format⟩

/-- Claim C5 at sample inputs: two formats give two windows in the order of the
formats, the first without a renderer receiving the default one; the main
window is the first entry. -/
theorem construct_window_list_witness :
    getNumWindows (AppImplLinux.construct sampleWorld sampleRaw sampleSettings).app = 2
    ∧ (AppImplLinux.construct sampleWorld sampleRaw sampleSettings).app.mWindows.map
        (fun w => w.format) = [⟨some ⟨1⟩, 1⟩, ⟨some ⟨2⟩, 2⟩]
    ∧ getWindowIndex (AppImplLinux.construct sampleWorld sampleRaw sampleSettings).app 0
        = Read.value (AppImplLinux.construct sampleWorld sampleRaw sampleSettings).app.mMainWindow := by
  have h := construct_window_list sampleWorld sampleRaw sampleSettings rfl
  obtain ⟨_, h2, h3, hfirst, _⟩ := h
  obtain ⟨first, _, _, h4⟩ := hfirst (by intro n format shared; simp [sampleWorld])
  refine ⟨by rw [h2]; rfl, ?_, h4⟩
  rw [h3]
  simp [sampleSettings, formatUsed, sampleWorld]

/-! ## The frame loop -/

lemma sleepUntilNextFrame_mShouldQuit (P : Platform) (app : AppImplLinux) (cur : ℚ) :
    (sleepUntilNextFrame P app cur).mShouldQuit = app.mShouldQuit := by
  unfold sleepUntilNextFrame
  cases requestedSleep P app cur <;> rfl

lemma sleepUntilNextFrame_mMainWindow (P : Platform) (app : AppImplLinux) (cur : ℚ) :
    (sleepUntilNextFrame P app cur).mMainWindow = app.mMainWindow := by
  unfold sleepUntilNextFrame
  cases requestedSleep P app cur <;> rfl

lemma sleepUntilNextFrame_calls (P : Platform) (app : AppImplLinux) (cur : ℚ) :
    (sleepUntilNextFrame P app cur).calls
      = app.calls ++ (match requestedSleep P app cur with
          | some us => [Call.usleep us]
          | none => []) := by
  unfold sleepUntilNextFrame
  cases requestedSleep P app cur <;> simp

/-- No member function of the file other than `run` changes the should-quit
flag or the main window. -/
lemma Op_apply_preserves (P : Platform) (env : World) (app : AppImplLinux) (op : Op) :
    (op.apply P env app).mShouldQuit = app.mShouldQuit
    ∧ (op.apply P env app).mMainWindow = app.mMainWindow := by
  cases op with
  | createWindow format =>
      exact ⟨createWindow_fst_mShouldQuit env app format,
        createWindow_fst_mMainWindow env app format⟩
  | sleepUntilNextFrame cur =>
      exact ⟨sleepUntilNextFrame_mShouldQuit P app cur, sleepUntilNextFrame_mMainWindow P app cur⟩
  | _ => exact ⟨rfl, rfl⟩

lemma applyOps_preserves (P : Platform) (env : World) (ops : List Op) :
    ∀ app : AppImplLinux,
      (applyOps P env app ops).mShouldQuit = app.mShouldQuit
      ∧ (applyOps P env app ops).mMainWindow = app.mMainWindow := by
  induction ops with
  | nil => intro app; exact ⟨rfl, rfl⟩
  | cons op rest ih =>
      intro app
      have h1 := ih (op.apply P env app)
      have h2 := Op_apply_preserves P env app op
      exact ⟨h1.1.trans h2.1, h1.2.trans h2.2⟩

/-- The state in which an iteration reaches its test of the close state. -/
lemma runIteration_fields (P : Platform) (env : World) (app : AppImplLinux) (frame : Frame) :
    (runIteration P env app frame).mMainWindow = app.mMainWindow
    ∧ (runIteration P env app frame).mShouldQuit
        = (app.mShouldQuit || frame.shouldClose app.mMainWindow) := by
  have h1 := applyOps_preserves P env frame.updateOps
    { app with calls := app.calls ++ [Call.privateUpdate] }
  set app1 := applyOps P env { app with calls := app.calls ++ [Call.privateUpdate] }
    frame.updateOps with happ1
  have h3 := applyOps_preserves P env frame.pollOps
    { app1 with calls := app1.calls ++ app1.mWindows.map Call.draw ++ [Call.glfwPollEvents] }
  set app3 := applyOps P env
    { app1 with calls := app1.calls ++ app1.mWindows.map Call.draw ++ [Call.glfwPollEvents] }
    frame.pollOps with happ3
  have hq : (sleepUntilNextFrame P app3 frame.currentSeconds).mShouldQuit = app.mShouldQuit := by
    rw [sleepUntilNextFrame_mShouldQuit, h3.1]; exact h1.1
  have hm : (sleepUntilNextFrame P app3 frame.currentSeconds).mMainWindow = app.mMainWindow := by
    rw [sleepUntilNextFrame_mMainWindow, h3.2]; exact h1.2
  have hrun : runIteration P env app frame
      = if frame.shouldClose (sleepUntilNextFrame P app3 frame.currentSeconds).mMainWindow = true
        then { sleepUntilNextFrame P app3 frame.currentSeconds with
                calls := (sleepUntilNextFrame P app3 frame.currentSeconds).calls ++
                  [Call.glfwWindowShouldClose
                    (sleepUntilNextFrame P app3 frame.currentSeconds).mMainWindow],
                mShouldQuit := true }
        else { sleepUntilNextFrame P app3 frame.currentSeconds with
                calls := (sleepUntilNextFrame P app3 frame.currentSeconds).calls ++
                  [Call.glfwWindowShouldClose
                    (sleepUntilNextFrame P app3 frame.currentSeconds).mMainWindow] } := by
    simp only [runIteration, happ3, happ1, List.append_assoc]
  rw [hrun, hm]
  cases hc : frame.shouldClose app.mMainWindow
  · simp [hm, hq]
  · simp [hm]

lemma whileNotShouldQuit_of_quit (P : Platform) (env : World) (app : AppImplLinux)
    (hq : app.mShouldQuit = true) (frames : List Frame) :
    whileNotShouldQuit P env app frames = some (app, 0) := by
  cases frames <;> simp [whileNotShouldQuit, hq]

lemma whileNotShouldQuit_running (P : Platform) (env : World) (frames : List Frame) :
    ∀ app : AppImplLinux, app.mShouldQuit = false →
      (∀ f ∈ frames, f.shouldClose app.mMainWindow = false) →
      whileNotShouldQuit P env app frames = none := by
  induction frames with
  | nil => intro app hq _; simp [whileNotShouldQuit, hq]
  | cons f rest ih =>
      intro app hq hall
      have hf := runIteration_fields P env app f
      have hclose : f.shouldClose app.mMainWindow = false := hall f (List.mem_cons_self f rest)
      have hq1 : (runIteration P env app f).mShouldQuit = false := by
        rw [hf.2, hq, hclose]; rfl
      have hrest := ih (runIteration P env app f) hq1 (by
        intro g hg
        rw [hf.1]
        exact hall g (List.mem_cons_of_mem f hg))
      simp [whileNotShouldQuit, hq, hrest]

lemma whileNotShouldQuit_stops (P : Platform) (env : World) (f : Frame) (post : List Frame)
    (pre : List Frame) :
    ∀ app : AppImplLinux, app.mShouldQuit = false →
      (∀ g ∈ pre, g.shouldClose app.mMainWindow = false) →
      f.shouldClose app.mMainWindow = true →
      ∃ final : AppImplLinux,
        whileNotShouldQuit P env app (pre ++ f :: post) = some (final, pre.length + 1)
        ∧ final.mShouldQuit = true ∧ final.mMainWindow = app.mMainWindow := by
  induction pre with
  | nil =>
      intro app hq _ hclose
      have hf := runIteration_fields P env app f
      have hq1 : (runIteration P env app f).mShouldQuit = true := by
        rw [hf.2, hq, hclose]; rfl
      refine ⟨runIteration P env app f, ?_, hq1, hf.1⟩
      simp [whileNotShouldQuit, hq, whileNotShouldQuit_of_quit P env _ hq1 post]
  | cons g rest ih =>
      intro app hq hall hclose
      have hg := runIteration_fields P env app g
      have hgclose : g.shouldClose app.mMainWindow = false := hall g (List.mem_cons_self g rest)
      have hq1 : (runIteration P env app g).mShouldQuit = false := by
        rw [hg.2, hq, hgclose]; rfl
      obtain ⟨final, h1, h2, h3⟩ := ih (runIteration P env app g) hq1 (by
        intro k hk
        rw [hg.1]
        exact hall k (List.mem_cons_of_mem g hk)) (by rw [hg.1]; exact hclose)
      refine ⟨final, ?_, h2, h3.trans hg.1⟩
      simp [whileNotShouldQuit, hq, h1]

/-- Claim C4.  In an iteration of the loop of `run` that starts with the flag
clear, the should-quit flag is set exactly when the native close state of the
main window is true at the end of the iteration, after the update, the drawing
of every window in list order, the event polling and `sleepUntilNextFrame`; once
the flag is set the loop performs no further iteration; no other member function
sets the flag, `quit()` included; so the loop, and `run` with it, keeps iterating
while the main window does not report close, whatever the other windows report
and whatever calls the application makes, and ends right after the first
iteration in which the main window reports close. -/
theorem run_loop_termination (P : Platform) (env : World) (app : AppImplLinux)
    (setupOps : List Op) :
    (∀ frame : Frame, app.mShouldQuit = false →
        ((runIteration P env app frame).mShouldQuit = true
          ↔ frame.shouldClose app.mMainWindow = true))
    ∧ (∀ frame : Frame, frame.updateOps = [] → frame.pollOps = [] →
        (runIteration P env app frame).calls
          = app.calls ++ [Call.privateUpdate] ++ app.mWindows.map Call.draw
              ++ [Call.glfwPollEvents]
              ++ (match requestedSleep P app frame.currentSeconds with
                  | some us => [Call.usleep us]
                  | none => [])
              ++ [Call.glfwWindowShouldClose app.mMainWindow])
    ∧ (∀ frames : List Frame, app.mShouldQuit = true →
        whileNotShouldQuit P env app frames = some (app, 0))
    ∧ (∀ op : Op, (op.apply P env app).mShouldQuit = app.mShouldQuit)
    ∧ (quit app).mShouldQuit = app.mShouldQuit
    ∧ (∀ frames : List Frame, app.mShouldQuit = false →
        (∀ f ∈ frames, f.shouldClose app.mMainWindow = false) →
        whileNotShouldQuit P env app frames = none
        ∧ run P env app setupOps frames = none)
    ∧ (∀ (pre : List Frame) (f : Frame) (post : List Frame), app.mShouldQuit = false →
        (∀ g ∈ pre, g.shouldClose app.mMainWindow = false) →
        f.shouldClose app.mMainWindow = true →
        (∃ final : AppImplLinux,
          whileNotShouldQuit P env app (pre ++ f :: post) = some (final, pre.length + 1)
          ∧ final.mShouldQuit = true)
        ∧ ∃ final : AppImplLinux,
            run P env app setupOps (pre ++ f :: post) = some final
            ∧ final.mShouldQuit = true) := by
  -- the state in which `run` enters its loop
  have hsetup := applyOps_preserves P env setupOps
    { app with calls := app.calls ++ [Call.privateSetup] }
  set app2 : AppImplLinux :=
    { applyOps P env { app with calls := app.calls ++ [Call.privateSetup] } setupOps with
      mSetupHasBeenCalled := true } with happ2
  have hq2 : app2.mShouldQuit = app.mShouldQuit := hsetup.1
  have hm2 : app2.mMainWindow = app.mMainWindow := hsetup.2
  have hrun : ∀ frames : List Frame, run P env app setupOps frames
      = match whileNotShouldQuit P env app2 frames with
        | some (app3, _) =>
            some { app3 with mMainWindow := none,
                             calls := app3.calls ++
                               [Call.resetMainWindow app3.mMainWindow, Call.glfwTerminate] }
        | none => none := fun _ => rfl
  refine ⟨?_, ?_, ?_, ?_, rfl, ?_, ?_⟩
  · intro frame hq
    rw [(runIteration_fields P env app frame).2, hq]
    simp
  · intro frame hu hp
    simp only [runIteration, hu, hp, applyOps, List.foldl_nil]
    split
    · simp [sleepUntilNextFrame_calls, sleepUntilNextFrame_mMainWindow, requestedSleep,
        nextFrameTime, elapsedSeconds, secondsPerFrame, numSkipFrames, sleepMicroSecs, sleepTime]
    · simp [sleepUntilNextFrame_calls, sleepUntilNextFrame_mMainWindow, requestedSleep,
        nextFrameTime, elapsedSeconds, secondsPerFrame, numSkipFrames, sleepMicroSecs, sleepTime]
  · intro frames hq
    exact whileNotShouldQuit_of_quit P env app hq frames
  · intro op
    exact (Op_apply_preserves P env app op).1
  · intro frames hq hall
    refine ⟨whileNotShouldQuit_running P env frames app hq hall, ?_⟩
    rw [hrun, whileNotShouldQuit_running P env frames app2 (hq2.trans hq) (by
      intro f hf; rw [hm2]; exact hall f hf)]
  · intro pre f post hq hall hclose
    obtain ⟨final, h1, h2, _⟩ := whileNotShouldQuit_stops P env f post pre app hq hall hclose
    obtain ⟨final2, h3, h4, _⟩ := whileNotShouldQuit_stops P env f post pre app2
      (hq2.trans hq) (by intro g hg; rw [hm2]; exact hall g hg) (by rw [hm2]; exact hclose)
    refine ⟨⟨final, h1, h2⟩,
      { final2 with mMainWindow := none,
                    calls := final2.calls ++
                      [Call.resetMainWindow final2.mMainWindow, Call.glfwTerminate] },
      by rw [hrun, h3], h4⟩

/-- Claim C4 on a list of two windows whose main window is window 100: a frame
in which the application calls `quit()` and only window 101 reports close
leaves the loop running; when the next frame reports close for window 100 the
loop ends after that second iteration, with the flag set. -/
theorem run_loop_termination_witness :
    (whileNotShouldQuit x86_64 sampleWorld twoWindows
        [sampleFrame [Op.quit] (fun w => decide (w = some 101))] = none
      ∧ run x86_64 sampleWorld twoWindows []
          [sampleFrame [Op.quit] (fun w => decide (w = some 101))] = none)
    ∧ (∃ final : AppImplLinux,
        whileNotShouldQuit x86_64 sampleWorld twoWindows
            ([sampleFrame [Op.quit] (fun w => decide (w = some 101))]
              ++ sampleFrame [] (fun w => decide (w = some 100)) :: [])
          = some (final, [sampleFrame [Op.quit] (fun w => decide (w = some 101))].length + 1)
        ∧ final.mShouldQuit = true)
    ∧ ∃ final : AppImplLinux,
        run x86_64 sampleWorld twoWindows []
            ([sampleFrame [Op.quit] (fun w => decide (w = some 101))]
              ++ sampleFrame [] (fun w => decide (w = some 100)) :: [])
          = some final
        ∧ final.mShouldQuit = true := by
  have h := run_loop_termination x86_64 sampleWorld twoWindows []
  have hall : ∀ g ∈ [sampleFrame [Op.quit] (fun w => decide (w = some 101))],
      g.shouldClose twoWindows.mMainWindow = false := by
    intro g hg
    rw [List.mem_singleton] at hg
    rw [hg]
    decide
  have hstop := h.2.2.2.2.2.2 [sampleFrame [Op.quit] (fun w => decide (w = some 101))]
    (sampleFrame [] (fun w => decide (w = some 100))) [] rfl hall (by decide)
  exact ⟨h.2.2.2.2.2.1 _ rfl hall, hstop.1, hstop.2⟩

end Cinder
